import Mathlib

/-!
# trealla-go: the instance lifecycle of `trealla/prolog.go`

A shallow embedding of the host-side interpreter object of `trealla/prolog.go`:
the `prolog` record, its lifecycle operations (`init`, `Clone`, `Close`), the
allocator bridge (`alloc`, `indirect`), the query side table (`subquery`) and the
transient `lockedProlog` handle.

Conventions of the embedding.

* Go pointers that may be nil are `Option`; a nil dereference is the outcome
  `Outcome.panic .nilDeref`.
* Go maps are `GoMap`: `none` is the nil map, `some l` a map whose entries are
  listed in `l` (the list order stands for the unspecified iteration order).
* `int32` values are `Int`; the conversions `uint32(x)` and the wrap-around of
  `int32`/`uint64` arithmetic are written out with explicit `%`.
* The WebAssembly runtime (wasmtime) and the parts of the package that live in
  other files (`QueryOnce`, `Query`, `newCString`, term printing, the constants
  `align` and `ptrSize`) are parameters: `Wasmtime` and `Env`.
* The mutex `mu` only serialises concurrent callers; the embedding is
  sequential, so `Lock`/`Unlock` do not appear.
-/

namespace Trealla

/-! ## Go values -/

/-- Go `error` values produced by this file; a nil error is `none : Option GoError`. -/
inductive GoError where
  /-- The sentinel `io.EOF`. -/
  | EOF
  /-- The result of `fmt.Errorf(text)` without a wrapped error. -/
  | errorf (text : String)
  /-- The result of `fmt.Errorf(text + ": %w", inner)`. -/
  | wrapf (text : String) (inner : GoError)
  /-- The result of `errUnexported(symbol)`. -/
  | unexported (symbol : String)
  /-- An error reported by the WebAssembly runtime or the guest. -/
  | wasm (text : String)
  deriving DecidableEq, Repr

/-- Reasons for a Go run-time panic. -/
inductive Panic where
  /-- Dereference of a nil pointer. -/
  | nilDeref
  /-- Assignment to an entry of a nil map. -/
  | nilMap
  /-- Slice bounds out of range. -/
  | sliceBounds
  /-- A failed single-value type assertion `x.(T)`. -/
  | typeAssert
  /-- An explicit `panic(err)`. -/
  | explicit (e : GoError)
  deriving DecidableEq, Repr

/-- What a Go call produces: it returns a value or it panics. -/
inductive Outcome (α : Type) where
  | ret (a : α)
  | panic (why : Panic)
  deriving DecidableEq, Repr

/-- A Go map: `none` is the nil map. -/
abbrev GoMap (κ : Type) (ν : Type) := Option (List (κ × ν))

namespace GoMap

variable {κ ν : Type} [DecidableEq κ]

/-- Entries visited by `for k, v := range m`; a nil map has none. -/
def entries (m : GoMap κ ν) : List (κ × ν) :=
  match m with
  | none => []
  | some l => l

/-- The comma-ok lookup `v, ok := m[k]`; reading a nil map finds nothing. -/
def get? (m : GoMap κ ν) (k : κ) : Option ν :=
  (m.entries.find? (fun e => decide (e.1 = k))).map Prod.snd

/-- The assignment `m[k] = v`: it panics on the nil map, otherwise the entry for
`k` is replaced or added. -/
def set (m : GoMap κ ν) (k : κ) (v : ν) : Outcome (GoMap κ ν) :=
  match m with
  | none => .panic .nilMap
  | some l => .ret (some ((k, v) :: l.filter (fun e => !decide (e.1 = k))))

/-- The library function `maps.Clone`: nil stays nil, otherwise a fresh map with the
same entries. -/
def clone (m : GoMap κ ν) : GoMap κ ν :=
  match m with
  | none => none
  | some l => some l

end GoMap

/-! ## The WebAssembly runtime -/

/-- One byte of linear memory. -/
abbrev Byte := Fin 256

/-- Bytes in one WebAssembly page. -/
def pageSize : Nat := 65536

/-- The WASI configuration built by `init`: the argument vector and the preopened
directories as (host path, guest path). -/
structure WasiConfig where
  argv : List String
  preopens : List (String × String)
  deriving DecidableEq, Repr

/-- A `wasmtime.Store` together with the linear memory of the one module
instantiated in it: `pages` is its current size, `maxPages` the limit up to which
it may grow, `byte i` the byte at offset `i`. -/
structure Store where
  wasi : Option WasiConfig
  pages : Nat
  maxPages : Nat
  byte : Nat → Byte

/-- A value returned by a guest call, as the Go `any` that wasmtime hands back. -/
inductive Val where
  | i32 (v : Int)
  | i64 (v : Int)
  | other (tag : String)
  deriving DecidableEq, Repr

/-- An exported guest function: calling it with arguments transforms the store
and yields a value or an error. -/
structure Func where
  run : Store → List Int → Except GoError Val × Store

/-- The handle `*wasmtime.Memory`; the bytes live in the store. -/
structure Memory where
  deriving DecidableEq, Repr

/-- An export of a guest instance (`*wasmtime.Extern`). -/
inductive Export where
  | func (f : Func)
  | memory (m : Memory)
  | other

/-- The method `(*Extern).Func`: nil unless the export is a function. -/
def Export.Func : Export → Option Func
  | .func f => some f
  | _ => none

/-- The method `(*Extern).Memory`: nil unless the export is a memory. -/
def Export.Memory : Export → Option Memory
  | .memory m => some m
  | _ => none

/-- A guest instance (`*wasmtime.Instance`): its exports by name. -/
structure Instance where
  exports : List (String × Export)

/-- The method `(*Instance).GetExport`. -/
def Instance.GetExport (i : Instance) (name : String) : Option Export :=
  (i.exports.find? (fun e => decide (e.1 = name))).map Prod.snd

/-- The method `(*Func).Call(store, args...)`: a nil function or nil store is a
nil dereference. -/
def Func.Call (f : Option Func) (store : Option Store) (args : List Int) :
    Outcome (Except GoError Val × Store) :=
  match f, store with
  | some f, some st => .ret (f.run st args)
  | _, _ => .panic .nilDeref

/-- The method `(*Memory).Size(store)`: the size in pages. -/
def Memory.Size (m : Option Memory) (store : Option Store) : Outcome Nat :=
  match m, store with
  | some _, some st => .ret st.pages
  | _, _ => .panic .nilDeref

/-- The method `(*Memory).DataSize(store)`: the size in bytes. -/
def Memory.DataSize (m : Option Memory) (store : Option Store) : Outcome Nat :=
  match m, store with
  | some _, some st => .ret (st.pages * pageSize)
  | _, _ => .panic .nilDeref

/-- A Go byte slice viewing linear memory: the offset in linear memory of its
element 0, its length (equal to its capacity) and the byte at each index. -/
structure Slice where
  base : Nat
  len : Nat
  get : Nat → Byte

/-- The method `(*Memory).UnsafeData(store)`: the whole linear memory as a slice. -/
def Memory.UnsafeData (m : Option Memory) (store : Option Store) : Outcome Slice :=
  match m, store with
  | some _, some st => .ret { base := 0, len := st.pages * pageSize, get := st.byte }
  | _, _ => .panic .nilDeref

/-- The method `(*Memory).Grow(store, delta)`: it fails when the limit would be
exceeded, otherwise the memory gains `delta` zeroed pages. -/
def Memory.Grow (m : Option Memory) (store : Option Store) (delta : Nat) :
    Outcome (Except GoError Store) :=
  match m, store with
  | some _, some st =>
    if st.pages + delta ≤ st.maxPages then
      .ret (.ok { st with
        pages := st.pages + delta
        byte := fun i => if i < st.pages * pageSize then st.byte i else 0 })
    else .ret (.error (.wasm "failed to grow memory"))
  | _, _ => .panic .nilDeref

/-! ## The interpreter record -/

/-- A native Go predicate (a Go function value), identified by a name. -/
structure Predicate where
  id : Nat
  deriving DecidableEq, Repr

/-- A `*log.Logger`. -/
structure Logger where
  id : Nat
  deriving DecidableEq, Repr

/-- The struct `query`; of its fields this file uses only `err`, `addr` stands for
the rest. -/
structure query where
  addr : Int
  err : Option GoError
  deriving DecidableEq, Repr

/-- The struct `Answer`; the zero value is `Answer.zero`. -/
structure Answer where
  Query : String
  deriving DecidableEq, Repr

/-- The zero value `Answer{}`. -/
def Answer.zero : Answer := { Query := "" }

/-- The struct `prolog`. The field `instance` is spelled `inst`. -/
structure prolog where
  inst : Option Instance
  store : Option Store
  wasi : Option WasiConfig
  memory : Option Memory
  closing : Bool
  running : GoMap Int query
  spawning : GoMap Int query
  ptr : Int
  realloc : Option Func
  free : Option Func
  pl_consult : Option Func
  pl_capture_free : Option Func
  pl_capture : Option Func
  pl_capture_read : Option Func
  pl_query : Option Func
  pl_redo : Option Func
  pl_done : Option Func
  procs : GoMap String Predicate
  preopen : String
  dirs : GoMap String String
  library : String
  trace : Bool
  quiet : Bool
  stdout : Option Logger
  stderr : Option Logger
  debug : Option Logger

/-- The zero value `new(prolog)`. -/
def prolog.zero : prolog :=
  { inst := none, store := none, wasi := none, memory := none, closing := false,
    running := none, spawning := none, ptr := 0,
    realloc := none, free := none, pl_consult := none, pl_capture_free := none,
    pl_capture := none, pl_capture_read := none, pl_query := none, pl_redo := none,
    pl_done := none, procs := none, preopen := "", dirs := none, library := "",
    trace := false, quiet := false, stdout := none, stderr := none, debug := none }

/-- A guest call made through one of the bound exports: the field it was made
through and its arguments. -/
structure GuestCall where
  fn : String
  args : List Int
  deriving DecidableEq, Repr

/-- The result of running a method on an interpreter: what it returned (or the
panic), the interpreter afterwards, and the guest calls it made, in order. -/
structure Step (α : Type) where
  out : Outcome α
  pl : prolog
  log : List GuestCall

/-- A `*cstring` made by `newCString`. -/
structure cstring where
  ptr : Int
  size : Int
  deriving DecidableEq, Repr

/-- An option passed to `Query` and `QueryOnce`. -/
inductive QueryOption where
  | withoutLock
  | other (id : Nat)
  deriving DecidableEq, Repr

/-- The parts of the package that this file calls but that are declared in its
other files, taken as parameters. -/
structure Env where
  /-- The constant `align`. -/
  align : Int
  /-- The constant `ptrSize`. -/
  ptrSize : Int
  /-- The method `(*prolog).QueryOnce`. -/
  QueryOnce : prolog → String → List QueryOption → Step (Answer × Option GoError)
  /-- The method `(*prolog).Query`. -/
  Query : prolog → String → List QueryOption → Step query
  /-- The function `newCString`: a C string in guest memory, or an error. -/
  newCString : prolog → String → Step (Except GoError cstring)
  /-- The method `(*cstring).free`. -/
  cfree : cstring → prolog → Step Unit
  /-- The method `(*prolog).loadBuiltins`. -/
  loadBuiltins : prolog → Step (Option GoError)
  /-- The text of the goal `Module:'$load_chars'(Text)`. -/
  loadCharsGoal : String → String → String
  /-- The text of `piTerm(Atom(name), arity)`. -/
  piString : String → Int → String
  /-- The text of `Atom(name).Of(numbervars(arity)...)`. -/
  headString : String → Int → String
  /-- The text of `Atom("host_rpc").Of(head)` for that head. -/
  bodyString : String → Int → String

/-! ## Operations of `prolog` -/

/-- The struct `Stats`. -/
structure Stats where
  MemorySize : Int
  deriving DecidableEq, Repr

/-- The zero value `Stats{}`. -/
def Stats.zero : Stats := { MemorySize := 0 }

/-- The method `(*prolog).function` (lines 260-266). -/
def prolog.function (pl : prolog) (symbol : String) : Outcome (Option Func × Option GoError) :=
  match pl.inst, pl.store with
  | some i, some _ =>
    match i.GetExport symbol with
    | none => .ret (none, some (.unexported symbol))
    | some e => .ret (e.Func, none)
  | _, _ => .panic .nilDeref

/-- The method `(*prolog).alloc` (lines 268-281). -/
def prolog.alloc (env : Env) (pl : prolog) (size : Int) : Step (Int × Option GoError) :=
  match Func.Call pl.realloc pl.store [0, 0, env.align, size] with
  | .panic p => { out := .panic p, pl := pl, log := [] }
  | .ret (ptrv, st) =>
    let pl1 := { pl with store := some st }
    let log := [{ fn := "realloc", args := [0, 0, env.align, size] }]
    match ptrv with
    | .error err => { out := .ret (0, some err), pl := pl1, log := log }
    | .ok (.i32 ptr) =>
      if ptr = 0 then
        { out := .ret (0, some (.errorf "trealla: failed to allocate wasm memory (out of memory?)")),
          pl := pl1, log := log }
      else { out := .ret (ptr, none), pl := pl1, log := log }
    | .ok _ =>
      { out := .ret (0, some (.errorf "unexpected return type for alloc")), pl := pl1, log := log }

/-- The method `(*prolog).Close` (lines 297-304). -/
def prolog.Close (pl : prolog) : Step Unit :=
  let pl := { pl with inst := none }
  let pl := { pl with memory := none }
  let pl := { pl with store := none }
  let pl := { pl with wasi := none }
  { out := .ret (), pl := pl, log := [] }

/-- The function `finalizeProlog` (lines 306-308). -/
def finalizeProlog (pl : prolog) : Step Unit :=
  pl.Close

/-- The method `(*prolog).consultText` (lines 319-327). -/
def prolog.consultText (env : Env) (pl : prolog) (module text : String) : Step (Option GoError) :=
  let goal := env.loadCharsGoal module text
  let r := env.QueryOnce pl goal [.withoutLock]
  match r.out with
  | .panic p => { out := .panic p, pl := r.pl, log := r.log }
  | .ret (_, none) => { out := .ret none, pl := r.pl, log := r.log }
  | .ret (_, some err) =>
    { out := .ret (some (.wrapf "trealla: consult text failed" err)), pl := r.pl, log := r.log }

/-- The method `(*prolog).ConsultText` (lines 310-317). -/
def prolog.ConsultText (env : Env) (pl : prolog) (module text : String) : Step (Option GoError) :=
  match pl.inst with
  | none => { out := .ret (some .EOF), pl := pl, log := [] }
  | some _ => pl.consultText env module text

/-- The method `(*prolog).consult` (lines 338-353). The deferred `fstr.free(pl)`
runs after the body on every exit, also when the body panics. -/
def prolog.consult (env : Env) (pl : prolog) (filename : String) : Step (Option GoError) :=
  let r := env.newCString pl filename
  match r.out with
  | .panic p => { out := .panic p, pl := r.pl, log := r.log }
  | .ret (.error err) => { out := .ret (some err), pl := r.pl, log := r.log }
  | .ret (.ok fstr) =>
    let call : GuestCall := { fn := "pl_consult", args := [r.pl.ptr, fstr.ptr] }
    let body : Step (Option GoError) :=
      match Func.Call r.pl.pl_consult r.pl.store [r.pl.ptr, fstr.ptr] with
      | .panic p => { out := .panic p, pl := r.pl, log := r.log }
      | .ret (ret, st) =>
        let pl1 := { r.pl with store := some st }
        match ret with
        | .error err => { out := .ret (some err), pl := pl1, log := r.log ++ [call] }
        | .ok (.i32 v) =>
          if v = 0 then
            { out := .ret (some (.errorf ("trealla: failed to consult file: " ++ filename))),
              pl := pl1, log := r.log ++ [call] }
          else { out := .ret none, pl := pl1, log := r.log ++ [call] }
        | .ok _ => { out := .panic .typeAssert, pl := pl1, log := r.log ++ [call] }
    let fr := env.cfree fstr body.pl
    match fr.out with
    | .panic p => { out := .panic p, pl := fr.pl, log := body.log ++ fr.log }
    | .ret _ => { out := body.out, pl := fr.pl, log := body.log ++ fr.log }

/-- The method `(*prolog).Consult` (lines 329-336). -/
def prolog.Consult (env : Env) (pl : prolog) (filename : String) : Step (Option GoError) :=
  match pl.inst with
  | none => { out := .ret (some .EOF), pl := pl, log := [] }
  | some _ => pl.consult env filename

/-- The method `(*prolog).register` (lines 378-387). -/
def prolog.register (env : Env) (pl : prolog) (name : String) (arity : Int) (proc : Predicate) :
    Step (Option GoError) :=
  match pl.procs.set (env.piString name arity) proc with
  | .panic p => { out := .panic p, pl := pl, log := [] }
  | .ret procs =>
    let pl1 := { pl with procs := procs }
    let clause := env.headString name arity ++ " :- " ++ env.bodyString name arity ++ "."
    pl1.consultText env "user" clause

/-- The method `(*prolog).Register` (lines 369-376). -/
def prolog.Register (env : Env) (pl : prolog) (name : String) (arity : Int) (proc : Predicate) :
    Step (Option GoError) :=
  match pl.inst with
  | none => { out := .ret (some .EOF), pl := pl, log := [] }
  | some _ => pl.register env name arity proc

/-- The method `(*prolog).stats` (lines 399-406). -/
def prolog.stats (pl : prolog) : Outcome Stats :=
  if pl.memory.isNone || pl.store.isNone then .ret Stats.zero
  else
    match Memory.DataSize pl.memory pl.store with
    | .panic p => .panic p
    | .ret n => .ret { MemorySize := n }

/-- The method `(*prolog).Stats` (lines 393-397). -/
def prolog.Stats (pl : prolog) : Outcome Stats :=
  pl.stats

/-! ## Instantiation: `init` and `Clone` -/

/-- What the WebAssembly runtime does during one `init`, taken as a parameter. -/
structure Wasmtime where
  /-- The call `wasi.PreopenDir(path, guestPath)`. -/
  PreopenDir : String → String → Option GoError
  /-- The call `linker.DefineWasi()`. -/
  DefineWasi : Option GoError
  /-- The call `linker.DefineFunc(store, "trealla", "host-call", ...)`. -/
  DefineHostCall : Option GoError
  /-- The call `linker.DefineFunc(store, "trealla", "host-resume", ...)`. -/
  DefineHostResume : Option GoError
  /-- The call `linker.Instantiate(store, wasmModule)`: on success the instance and
  the store, which now holds the instance's linear memory. -/
  Instantiate : Store → Except GoError (Instance × Store)

/-- The call `wasmtime.NewStore(wasmEngine)`: a store without wasi and memory. -/
def NewStore : Store :=
  { wasi := none, pages := 0, maxPages := 0, byte := fun _ => 0 }

/-- The method `(*Store).SetWasi`. -/
def Store.SetWasi (st : Store) (wasi : WasiConfig) : Store :=
  { st with wasi := some wasi }

/-- The result of `init`: the returned error (or the panic), the receiver
afterwards and the interpreter passed as `clone` afterwards. -/
structure InitResult where
  out : Outcome (Option GoError)
  pl : prolog
  clone : Option prolog

/-- The method `(*prolog).argv` (lines 90-102). -/
def prolog.argv (pl : prolog) : List String :=
  let args := ["tpl", "-g", "halt", "--ns"]
  let args := if pl.library ≠ "" then args ++ ["--library", pl.library] else args
  let args := if pl.trace then args ++ ["-t"] else args
  let args := if pl.quiet then args ++ ["-q"] else args
  args

/-- The loop of lines 113-117 over the entries (name, dir) of `pl.dirs`. -/
def preopenDirs (rt : Wasmtime) : List (String × String) → WasiConfig → Outcome WasiConfig
  | [], wasi => .ret wasi
  | (name, dir) :: rest, wasi =>
    match rt.PreopenDir dir name with
    | some err => .panic (.explicit err)
    | none => preopenDirs rt rest { wasi with preopens := wasi.preopens ++ [(dir, name)] }

/-- Lines 105-117 of `init`: the WASI configuration of the receiver. -/
def prolog.wasiConfig (rt : Wasmtime) (pl : prolog) : Outcome WasiConfig :=
  let argv := pl.argv
  let wasi : WasiConfig := { argv := argv, preopens := [] }
  if pl.preopen ≠ "" then
    match rt.PreopenDir pl.preopen "/" with
    | some err => .panic (.explicit err)
    | none => preopenDirs rt pl.dirs.entries { wasi with preopens := [(pl.preopen, "/")] }
  else preopenDirs rt pl.dirs.entries wasi

/-- One assignment `pl.f, err = pl.function(symbol)` followed by
`if err != nil return err`, then the rest `k` of `init`. -/
def prolog.bindExport (pl : prolog) (symbol : String) (assign : prolog → Option Func → prolog)
    (k : prolog → Outcome (Option GoError) × prolog) : Outcome (Option GoError) × prolog :=
  match pl.function symbol with
  | .panic p => (.panic p, pl)
  | .ret (f, err) =>
    let pl := assign pl f
    match err with
    | some e => (.ret (some e), pl)
    | none => k pl

/-- Lines 158-201 of `init`: the nine exports bound in the order of the source. -/
def prolog.bindExports (pl : prolog) : Outcome (Option GoError) × prolog :=
  pl.bindExport "canonical_abi_realloc" (fun p f => { p with realloc := f }) fun pl =>
  pl.bindExport "canonical_abi_free" (fun p f => { p with free := f }) fun pl =>
  pl.bindExport "pl_capture" (fun p f => { p with pl_capture := f }) fun pl =>
  pl.bindExport "pl_capture_read" (fun p f => { p with pl_capture_read := f }) fun pl =>
  pl.bindExport "pl_capture_free" (fun p f => { p with pl_capture_free := f }) fun pl =>
  pl.bindExport "pl_query" (fun p f => { p with pl_query := f }) fun pl =>
  pl.bindExport "pl_redo" (fun p f => { p with pl_redo := f }) fun pl =>
  pl.bindExport "pl_done" (fun p f => { p with pl_done := f }) fun pl =>
  pl.bindExport "pl_consult" (fun p f => { p with pl_consult := f }) fun pl =>
  (.ret none, pl)

/-- Lines 152-201 of `init`: the memory export and the bound functions. -/
def prolog.bindMemory (pl : prolog) (inst : Instance) : Outcome (Option GoError) × prolog :=
  match inst.GetExport "memory" with
  | none => (.panic .nilDeref, pl)
  | some e =>
    match e.Memory with
    | none => (.ret (some (.errorf "trealla: failed to get memory")), pl)
    | some mem =>
      let pl := { pl with memory := some mem }
      pl.bindExports

/-- Lines 104-201 of `init`: configure WASI, instantiate the guest module, run
`_start` when `fresh` (that is, `clone == nil`), bind memory and exports. -/
def prolog.initInstance (rt : Wasmtime) (pl : prolog) (fresh : Bool) :
    Outcome (Option GoError) × prolog :=
  match pl.wasiConfig rt with
  | .panic p => (.panic p, pl)
  | .ret wasi =>
    let pl := { pl with wasi := some wasi }
    let pl := { pl with store := some (NewStore.SetWasi wasi) }
    match rt.DefineWasi with
    | some err => (.ret (some err), pl)
    | none =>
    match rt.DefineHostCall with
    | some err => (.ret (some err), pl)
    | none =>
    match rt.DefineHostResume with
    | some err => (.ret (some err), pl)
    | none =>
    match rt.Instantiate (NewStore.SetWasi wasi) with
    | .error err => (.ret (some err), pl)
    | .ok (inst, st) =>
      let pl := { pl with store := some st }
      let pl := { pl with inst := some inst }
      if fresh then
        match inst.GetExport "_start" with
        | none => (.ret (some (.errorf "trealla: failed to get start function")), pl)
        | some start =>
          match Func.Call start.Func pl.store [] with
          | .panic p => (.panic p, pl)
          | .ret (.error err, st) =>
            (.ret (some (.wrapf "trealla: failed to initialize" err)), { pl with store := some st })
          | .ret (.ok _, st) => prolog.bindMemory { pl with store := some st } inst
      else pl.bindMemory inst

/-- The `uint64` subtraction `a - b`, which wraps around modulo `2^64`. -/
def subUint64 (a b : Nat) : Nat :=
  (a % 2 ^ 64 + (2 ^ 64 - b % 2 ^ 64)) % 2 ^ 64

/-- Line 219 of `init`: `delta` for a source of `s` pages and a fresh memory of
`f` pages. -/
def cloneDelta (s f : Nat) : Nat :=
  subUint64 s f

/-- The builtin `copy(dst, src)` of line 225 applied to the two linear memories:
the first `min(len(dst), len(src))` bytes of the receiver's memory become the
source's. -/
def prolog.copyMemory (pl : prolog) (clone : prolog) : InitResult :=
  match Memory.UnsafeData pl.memory pl.store with
  | .panic p => { out := .panic p, pl := pl, clone := some clone }
  | .ret dst =>
    match Memory.UnsafeData clone.memory clone.store with
    | .panic p => { out := .panic p, pl := pl, clone := some clone }
    | .ret src =>
      let n := min dst.len src.len
      { out := .ret none
        pl := { pl with store := pl.store.map fun st =>
                  { st with byte := fun i => if i < n then src.get i else dst.get i } }
        clone := some clone }

/-- Lines 203-227 of `init`, the branch `clone != nil`. The finalizer and the new
mutex are outside the sequential state. -/
def prolog.initClone (pl : prolog) (clone : prolog) : InitResult :=
  let pl := { pl with ptr := clone.ptr }
  let pl := { pl with running := clone.running.clone }
  let pl := { pl with spawning := clone.spawning.clone }
  let pl := { pl with procs := pl.procs.clone }
  let pl := { pl with preopen := clone.preopen }
  let pl := { pl with dirs := clone.dirs }
  let pl := { pl with library := clone.library }
  let pl := { pl with quiet := clone.quiet }
  let pl := { pl with trace := clone.trace }
  let pl := { pl with debug := clone.debug }
  match Memory.Size clone.memory clone.store with
  | .panic p => { out := .panic p, pl := pl, clone := some clone }
  | .ret s =>
    match Memory.Size pl.memory pl.store with
    | .panic p => { out := .panic p, pl := pl, clone := some clone }
    | .ret f =>
      let delta := cloneDelta s f
      if delta > 0 then
        match Memory.Grow pl.memory pl.store delta with
        | .panic p => { out := .panic p, pl := pl, clone := some clone }
        | .ret (.error err) => { out := .ret (some err), pl := pl, clone := some clone }
        | .ret (.ok st) => prolog.copyMemory { pl with store := some st } clone
      else pl.copyMemory clone

/-- Lines 229-245 of `init`, the branch `clone == nil`. -/
def prolog.initFresh (env : Env) (pl : prolog) : InitResult :=
  match pl.function "pl_global" with
  | .panic p => { out := .panic p, pl := pl, clone := none }
  | .ret (_, some err) => { out := .ret (some err), pl := pl, clone := none }
  | .ret (pl_global, none) =>
    match Func.Call pl_global pl.store [] with
    | .panic p => { out := .panic p, pl := pl, clone := none }
    | .ret (.error err, st) =>
      { out := .ret (some (.wrapf "trealla: failed to get interpreter" err))
        pl := { pl with store := some st }, clone := none }
    | .ret (.ok (.i32 ptr), st) =>
      let pl := { pl with store := some st, ptr := ptr }
      let r := env.loadBuiltins pl
      match r.out with
      | .panic p => { out := .panic p, pl := r.pl, clone := none }
      | .ret (some err) =>
        { out := .ret (some (.wrapf "trealla: failed to load builtins" err)), pl := r.pl
          clone := none }
      | .ret none => { out := .ret none, pl := r.pl, clone := none }
    | .ret (.ok _, st) =>
      { out := .panic .typeAssert, pl := { pl with store := some st }, clone := none }

/-- The method `(*prolog).init` (lines 104-246). -/
def prolog.init (rt : Wasmtime) (env : Env) (pl : prolog) (clone : Option prolog) : InitResult :=
  match pl.initInstance rt clone.isNone with
  | (.ret none, pl1) =>
    match clone with
    | some src => pl1.initClone src
    | none => pl1.initFresh env
  | (out, pl1) => { out := out, pl := pl1, clone := clone }

/-- The method `(*prolog).clone` (lines 254-258): `pl` of the result is the
returned clone, `out` the returned error. -/
def prolog.clone (rt : Wasmtime) (env : Env) (pl : prolog) : InitResult :=
  let clone := prolog.zero
  clone.init rt env (some pl)

/-- The method `(*prolog).Clone` (lines 248-252). -/
def prolog.Clone (rt : Wasmtime) (env : Env) (pl : prolog) : InitResult :=
  pl.clone rt env

/-- The function `New` (lines 77-88) for the options `opts`. -/
def New (rt : Wasmtime) (env : Env) (opts : List (prolog → prolog)) : InitResult :=
  let pl := { prolog.zero with running := some [], spawning := some [], procs := some [] }
  let pl := opts.foldl (fun p opt => opt p) pl
  pl.init rt env none

/-! ## Indirect pointers and the query tables -/

/-- The conversion `uint32(x)` of an `int32`. -/
def toUint32 (x : Int) : Nat :=
  (x % 2 ^ 32).toNat

/-- The wrap-around of `int32` arithmetic, also the conversion `int32(u)` of a
`uint32`. -/
def wrapInt32 (x : Int) : Int :=
  (x + 2 ^ 31) % 2 ^ 32 - 2 ^ 31

/-- The slice expression `s[lo:hi]`: a run-time panic unless
`lo <= hi <= cap(s)`. -/
def Slice.slice (s : Slice) (lo hi : Nat) : Outcome Slice :=
  if lo ≤ hi ∧ hi ≤ s.len then
    .ret { base := s.base + lo, len := hi - lo, get := fun i => s.get (lo + i) }
  else .panic .sliceBounds

/-- The call `binary.Read(bytes.NewBuffer(buf), binary.LittleEndian, &p)` for
`p` of type `int32`: the value or the error, and the offsets of linear memory
it read. Four bytes are needed; a shorter buffer is read to its end and gives an
error. -/
def binaryReadInt32 (buf : Slice) : Except GoError Int × List Nat :=
  if 4 ≤ buf.len then
    (.ok (wrapInt32 ((buf.get 0).val + 256 * (buf.get 1).val + 65536 * (buf.get 2).val
        + 16777216 * (buf.get 3).val)),
      [buf.base, buf.base + 1, buf.base + 2, buf.base + 3])
  else if buf.len = 0 then (.error .EOF, [])
  else (.error (.errorf "unexpected EOF"), (List.range buf.len).map fun i => buf.base + i)

/-- The result of a method that only reads: what it returned (or the panic), the
interpreter afterwards, and the offsets of linear memory it read, in order. -/
structure ReadStep (α : Type) where
  out : Outcome α
  pl : prolog
  reads : List Nat

/-- The method `(*prolog).indirect` (lines 355-367). -/
def prolog.indirect (env : Env) (pl : prolog) (pp : Int) : ReadStep Int :=
  if pp = 0 then { out := .ret 0, pl := pl, reads := [] }
  else
    match Memory.UnsafeData pl.memory pl.store with
    | .panic p => { out := .panic p, pl := pl, reads := [] }
    | .ret data =>
      match data.slice (toUint32 pp) (toUint32 (wrapInt32 (pp + env.ptrSize))) with
      | .panic p => { out := .panic p, pl := pl, reads := [] }
      | .ret buf =>
        match binaryReadInt32 buf with
        | (.error _, reads) => { out := .ret 0, pl := pl, reads := reads }
        | (.ok p, reads) => { out := .ret p, pl := pl, reads := reads }

/-- The loop of lines 287-293 of `subquery` over the entries of `pl.spawning`,
in the order they are visited. -/
def prolog.subqueryLoop (env : Env) (pl : prolog) (addr : Int) :
    List (Int × query) → ReadStep (Option query)
  | [] => { out := .ret none, pl := pl, reads := [] }
  | (spawn, q) :: rest =>
    let r := pl.indirect env spawn
    match r.out with
    | .panic p => { out := .panic p, pl := r.pl, reads := r.reads }
    | .ret ptr =>
      if ptr ≠ 0 ∧ ptr = addr then { out := .ret (some q), pl := r.pl, reads := r.reads }
      else
        let k := prolog.subqueryLoop env r.pl addr rest
        { out := k.out, pl := k.pl, reads := r.reads ++ k.reads }

/-- The method `(*prolog).subquery` (lines 283-295); the nil query is `none`. -/
def prolog.subquery (env : Env) (pl : prolog) (addr : Int) : ReadStep (Option query) :=
  match pl.running.get? addr with
  | some q => { out := .ret (some q), pl := pl, reads := [] }
  | none => pl.subqueryLoop env addr pl.spawning.entries

/-! ## The transient handle `lockedProlog` -/

/-- The struct `lockedProlog` (lines 410-413). The pointer `prolog` is nil
(`none`) or points to the interpreter the handle was made for, whose state is
passed alongside the handle. -/
structure lockedProlog where
  prolog : Option Unit
  dead : Bool
  deriving DecidableEq, Repr

/-- The result of a method of `lockedProlog`: what it returned (or the panic), the
handle afterwards, the interpreter the handle was made for afterwards, and the
guest calls made. -/
structure LockedStep (α : Type) where
  out : Outcome α
  lp : lockedProlog
  pl : prolog
  log : List GuestCall

/-- The method `(*lockedProlog).kill` (lines 415-418). -/
def lockedProlog.kill (lp : lockedProlog) : lockedProlog :=
  let lp := { lp with dead := true }
  let lp := { lp with prolog := none }
  lp

/-- The method `(*lockedProlog).ensure` (lines 420-425). -/
def lockedProlog.ensure (lp : lockedProlog) : Option GoError :=
  if lp.dead then some (.errorf "trealla: using invalid reference to interpreter")
  else none

/-- The error `ensure` returns for a dead handle. -/
def errInvalidReference : GoError :=
  .errorf "trealla: using invalid reference to interpreter"

/-- Run a method of the underlying interpreter through the pointer `lp.prolog`;
a nil pointer is a nil dereference. -/
def lockedProlog.deref {α : Type} (lp : lockedProlog) (pl : Trealla.prolog) (f : Trealla.prolog → Step α) :
    LockedStep α :=
  match lp.prolog with
  | none => { out := .panic .nilDeref, lp := lp, pl := pl, log := [] }
  | some _ => let r := f pl; { out := r.out, lp := lp, pl := r.pl, log := r.log }

/-- The method `(*lockedProlog).Clone` (lines 427-432). The method `clone` does
not dereference its receiver before `init`, so a nil `prolog` reaches `init` as a
nil `clone` argument. -/
def lockedProlog.Clone (rt : Wasmtime) (env : Env) (lp : lockedProlog) (pl : Trealla.prolog) :
    LockedStep (Option Trealla.prolog × Option GoError) :=
  match lp.ensure with
  | some err => { out := .ret (none, some err), lp := lp, pl := pl, log := [] }
  | none =>
    let r := Trealla.prolog.zero.init rt env (lp.prolog.map fun _ => pl)
    match r.out with
    | .panic p => { out := .panic p, lp := lp, pl := pl, log := [] }
    | .ret err => { out := .ret (some r.pl, err), lp := lp, pl := pl, log := [] }

/-- The method `(*lockedProlog).Query` (lines 434-439). -/
def lockedProlog.Query (env : Env) (lp : lockedProlog) (pl : Trealla.prolog) (ask : String)
    (options : List QueryOption) : LockedStep query :=
  match lp.ensure with
  | some err => { out := .ret { addr := 0, err := some err }, lp := lp, pl := pl, log := [] }
  | none => lp.deref pl fun p => env.Query p ask (options ++ [.withoutLock])

/-- The method `(*lockedProlog).QueryOnce` (lines 441-446). -/
def lockedProlog.QueryOnce (env : Env) (lp : lockedProlog) (pl : Trealla.prolog) (query : String)
    (options : List QueryOption) : LockedStep (Answer × Option GoError) :=
  match lp.ensure with
  | some err => { out := .ret (Answer.zero, some err), lp := lp, pl := pl, log := [] }
  | none => lp.deref pl fun p => env.QueryOnce p query (options ++ [.withoutLock])

/-- The method `(*lockedProlog).ConsultText` (lines 448-453). -/
def lockedProlog.ConsultText (env : Env) (lp : lockedProlog) (pl : Trealla.prolog)
    (module text : String) : LockedStep (Option GoError) :=
  match lp.ensure with
  | some err => { out := .ret (some err), lp := lp, pl := pl, log := [] }
  | none => lp.deref pl fun p => p.consultText env module text

/-- The method `(*lockedProlog).Consult` (lines 455-460). -/
def lockedProlog.Consult (env : Env) (lp : lockedProlog) (pl : Trealla.prolog) (filename : String) :
    LockedStep (Option GoError) :=
  match lp.ensure with
  | some err => { out := .ret (some err), lp := lp, pl := pl, log := [] }
  | none => lp.deref pl fun p => p.consult env filename

/-- The method `(*lockedProlog).Register` (lines 462-467). -/
def lockedProlog.Register (env : Env) (lp : lockedProlog) (pl : Trealla.prolog) (name : String)
    (arity : Int) (proc : Predicate) : LockedStep (Option GoError) :=
  match lp.ensure with
  | some err => { out := .ret (some err), lp := lp, pl := pl, log := [] }
  | none => lp.deref pl fun p => p.register env name arity proc

/-- The method `(*lockedProlog).Close` (lines 469-474). -/
def lockedProlog.Close (lp : lockedProlog) (pl : Trealla.prolog) : LockedStep Unit :=
  match lp.ensure with
  | some _ => { out := .ret (), lp := lp, pl := pl, log := [] }
  | none =>
    lp.deref pl fun p => { out := .ret (), pl := { p with closing := true }, log := [] }

/-- The method `(*lockedProlog).Stats` (lines 476-481). -/
def lockedProlog.Stats (lp : lockedProlog) (pl : Trealla.prolog) : LockedStep Stats :=
  match lp.ensure with
  | some _ => { out := .ret Stats.zero, lp := lp, pl := pl, log := [] }
  | none => lp.deref pl fun p => { out := p.stats, pl := p, log := [] }

/-! ## Views used in the statements -/

/-- The WASI configuration of an interpreter whose configuration fields are all
zero: the four fixed arguments and no preopened directory. -/
def defaultWasi : WasiConfig :=
  { argv := ["tpl", "-g", "halt", "--ns"], preopens := [] }

/-- The fields of `prolog` that instantiation (lines 120-201 of `init`) does not
assign: the WASI configuration once built, and the host-side state and
configuration. -/
def prolog.kept (pl : prolog) :
    Option WasiConfig × Bool × GoMap Int query × GoMap Int query × Int ×
      GoMap String Predicate × String × GoMap String String × String × Bool × Bool ×
      Option Logger × Option Logger × Option Logger :=
  (pl.wasi, pl.closing, pl.running, pl.spawning, pl.ptr, pl.procs, pl.preopen, pl.dirs,
    pl.library, pl.trace, pl.quiet, pl.stdout, pl.stderr, pl.debug)

/-- The clause `register` consults for `name/arity` (line 385). -/
def registerClause (env : Env) (name : String) (arity : Int) : String :=
  env.headString name arity ++ " :- " ++ env.bodyString name arity ++ "."

/-! ## Sample runtime, environment and interpreters -/

namespace Sample

/-- A guest function that returns the 32-bit value `v` and leaves the store as it is. -/
def constFunc (v : Int) : Func :=
  { run := fun st _ => (.ok (.i32 v), st) }

/-- A guest instance exporting the memory and every function `init` binds. -/
def inst : Instance :=
  { exports :=
      [("memory", .memory {}), ("_start", .func (constFunc 0)),
       ("canonical_abi_realloc", .func (constFunc 1024)),
       ("canonical_abi_free", .func (constFunc 0)),
       ("pl_capture", .func (constFunc 0)), ("pl_capture_read", .func (constFunc 0)),
       ("pl_capture_free", .func (constFunc 0)), ("pl_query", .func (constFunc 1)),
       ("pl_redo", .func (constFunc 1)), ("pl_done", .func (constFunc 0)),
       ("pl_consult", .func (constFunc 1)), ("pl_global", .func (constFunc 64))] }

/-- A runtime in which every step succeeds; a new instance has `f` pages of
zeroed memory and may grow to four pages. -/
def rt (f : Nat) : Wasmtime :=
  { PreopenDir := fun _ _ => none
    DefineWasi := none
    DefineHostCall := none
    DefineHostResume := none
    Instantiate := fun st => .ok (inst, { st with pages := f, maxPages := 4 }) }

/-- An environment whose queries succeed with one guest call each. -/
def env : Env :=
  { align := 1
    ptrSize := 4
    QueryOnce := fun pl goal _ =>
      { out := .ret ({ Query := goal }, none), pl := pl, log := [{ fn := "pl_query", args := [] }] }
    Query := fun pl _ _ =>
      { out := .ret { addr := 16, err := none }, pl := pl, log := [{ fn := "pl_query", args := [] }] }
    newCString := fun pl s =>
      { out := .ret (.ok { ptr := 1024, size := s.length }), pl := pl
        log := [{ fn := "realloc", args := [0, 0, 1, s.length] }] }
    cfree := fun c pl =>
      { out := .ret (), pl := pl, log := [{ fn := "free", args := [c.ptr, c.size, 1] }] }
    loadBuiltins := fun pl => { out := .ret none, pl := pl, log := [] }
    loadCharsGoal := fun m t => m ++ ":'$load_chars'(" ++ t ++ ")"
    piString := fun n a => n ++ "/" ++ toString a
    headString := fun n _ => n ++ "(A)"
    bodyString := fun n _ => "host_rpc(" ++ n ++ "(A))" }

/-- The linear memory of the sample interpreter: one page, the pointer `0x00000120`
stored little-endian at offset 8 and `0x00000000` at offset 16. -/
def store : Store :=
  { wasi := none, pages := 1, maxPages := 4
    byte := fun i => if i = 8 then 32 else if i = 9 then 1 else 0 }

/-- An open interpreter with one registered predicate, one running query and two
spawning queries. -/
def pl : prolog :=
  { prolog.zero with
    inst := some inst, store := some store, memory := some {}, ptr := 64
    realloc := some (constFunc 1024), free := some (constFunc 0)
    pl_consult := some (constFunc 1)
    running := some [(48, { addr := 48, err := none })]
    spawning := some [(16, { addr := 1, err := none }), (8, { addr := 2, err := none })]
    procs := some [("foo/1", { id := 7 })] }

/-- The store of a newly instantiated guest with `f` zeroed pages. -/
def freshStore (f : Nat) : Store :=
  { wasi := none, pages := f, maxPages := 4, byte := fun _ => 0 }

/-- A receiver as `init` has it on entering the clone branch: memory and store
bound, everything else zero. -/
def fresh (f : Nat) : prolog :=
  { prolog.zero with inst := some inst, memory := some {}, store := some (freshStore f) }

/-- The sample interpreter with every configuration field set: a library path,
tracing, quiet, a preopened directory, a mapped directory and three loggers. -/
def configured : prolog :=
  { pl with
    library := "/testdata", trace := true, quiet := true, preopen := "/srv"
    dirs := some [("testdata", "./testdata")]
    stdout := some { id := 1 }, stderr := some { id := 2 }, debug := some { id := 3 } }

/-- An environment like `env` whose queries fail with a guest error. -/
def failing : Env :=
  { env with
    QueryOnce := fun pl _ _ =>
      { out := .ret (Answer.zero, some (.wasm "syntax error")), pl := pl
        log := [{ fn := "pl_query", args := [] }] } }

end Sample

/-! ## Theorems -/

/-- C1: `Close` detaches the instance, and on every interpreter whose instance is
detached each of `ConsultText`, `Consult` and `Register` returns `io.EOF`, makes
no guest call and leaves the interpreter, in particular `procs`, `running` and
`spawning`, exactly as it was. -/
theorem closed_operations_return_EOF (env : Env) (pl : prolog) (module text filename name : String)
    (arity : Int) (proc : Predicate) :
    (pl.Close).pl.inst = none ∧
    ∀ c : prolog, c.inst = none →
      (c.ConsultText env module text).out = .ret (some .EOF) ∧
      (c.ConsultText env module text).log = [] ∧
      (c.ConsultText env module text).pl = c ∧
      (c.Consult env filename).out = .ret (some .EOF) ∧
      (c.Consult env filename).log = [] ∧
      (c.Consult env filename).pl = c ∧
      (c.Register env name arity proc).out = .ret (some .EOF) ∧
      (c.Register env name arity proc).log = [] ∧
      (c.Register env name arity proc).pl = c ∧
      (c.ConsultText env module text).pl.procs = c.procs ∧
      (c.ConsultText env module text).pl.running = c.running ∧
      (c.ConsultText env module text).pl.spawning = c.spawning ∧
      (c.Consult env filename).pl.procs = c.procs ∧
      (c.Consult env filename).pl.running = c.running ∧
      (c.Consult env filename).pl.spawning = c.spawning ∧
      (c.Register env name arity proc).pl.procs = c.procs ∧
      (c.Register env name arity proc).pl.running = c.running ∧
      (c.Register env name arity proc).pl.spawning = c.spawning := by
  refine ⟨rfl, ?_⟩
  intro c hc
  simp [prolog.ConsultText, prolog.Consult, prolog.Register, hc]

/-- C1 at the sample interpreter after `Close`: the three operations return
`io.EOF`, while before `Close` the same `Register` reaches the guest. -/
theorem closed_operations_return_EOF_witness :
    ((Sample.pl.Close).pl.Register Sample.env "bar" 2 { id := 9 }).out = .ret (some .EOF) ∧
    ((Sample.pl.Close).pl.Register Sample.env "bar" 2 { id := 9 }).log = [] ∧
    (Sample.pl.Register Sample.env "bar" 2 { id := 9 }).out = .ret none ∧
    (Sample.pl.Register Sample.env "bar" 2 { id := 9 }).log = [{ fn := "pl_query", args := [] }] :=
  ⟨((closed_operations_return_EOF Sample.env Sample.pl "user" "a." "f.pl" "bar" 2 { id := 9 }).2
      (Sample.pl.Close).pl rfl).2.2.2.2.2.2.1,
   ((closed_operations_return_EOF Sample.env Sample.pl "user" "a." "f.pl" "bar" 2 { id := 9 }).2
      (Sample.pl.Close).pl rfl).2.2.2.2.2.2.2.1,
   rfl, rfl⟩

/-- C3: `Close` always returns, leaves `instance`, `memory`, `store` and `wasi`
nil, changes no other field, and a second `Close` gives the same result as the
first. -/
theorem Close_total_idempotent (pl : prolog) :
    (pl.Close).out = .ret () ∧
    (pl.Close).pl.inst = none ∧ (pl.Close).pl.memory = none ∧
    (pl.Close).pl.store = none ∧ (pl.Close).pl.wasi = none ∧
    (pl.Close).pl.ptr = pl.ptr ∧ (pl.Close).pl.procs = pl.procs ∧
    (pl.Close).pl.running = pl.running ∧ (pl.Close).pl.spawning = pl.spawning ∧
    (pl.Close).pl.closing = pl.closing ∧
    (pl.Close).pl.preopen = pl.preopen ∧ (pl.Close).pl.dirs = pl.dirs ∧
    (pl.Close).pl.library = pl.library ∧ (pl.Close).pl.trace = pl.trace ∧
    (pl.Close).pl.quiet = pl.quiet ∧ (pl.Close).pl.stdout = pl.stdout ∧
    (pl.Close).pl.stderr = pl.stderr ∧ (pl.Close).pl.debug = pl.debug ∧
    (pl.Close).pl.realloc = pl.realloc ∧ (pl.Close).pl.free = pl.free ∧
    (pl.Close).pl.pl_consult = pl.pl_consult ∧
    (pl.Close).pl.pl_capture_free = pl.pl_capture_free ∧
    (pl.Close).pl.pl_capture = pl.pl_capture ∧
    (pl.Close).pl.pl_capture_read = pl.pl_capture_read ∧
    (pl.Close).pl.pl_query = pl.pl_query ∧ (pl.Close).pl.pl_redo = pl.pl_redo ∧
    (pl.Close).pl.pl_done = pl.pl_done ∧
    (pl.Close).log = [] ∧
    (pl.Close).pl.Close = pl.Close ∧
    (finalizeProlog (pl.Close).pl) = pl.Close := by
  simp [prolog.Close, finalizeProlog]

/-- The value `alloc` returns when the allocator and the store are attached, by
what the guest allocator returned. -/
theorem alloc_out (env : Env) (pl : prolog) (size : Int) (f : Func) (st : Store)
    (hf : pl.realloc = some f) (hs : pl.store = some st) :
    (pl.alloc env size).out =
      match (f.run st [0, 0, env.align, size]).1 with
      | .error err => .ret (0, some err)
      | .ok (.i32 ptr) =>
        if ptr = 0 then
          .ret (0, some (.errorf "trealla: failed to allocate wasm memory (out of memory?)"))
        else .ret (ptr, none)
      | .ok _ => .ret (0, some (.errorf "unexpected return type for alloc")) := by
  rcases hr : f.run st [0, 0, env.align, size] with ⟨res, st1⟩
  unfold prolog.alloc Func.Call
  rw [hf, hs]
  simp only [hr]
  rcases res with e | v
  · rfl
  · cases v with
    | i32 x => by_cases hx : x = 0 <;> simp [hx]
    | i64 x => rfl
    | other t => rfl

/-- C7: `alloc` returns the pointer 0 with a non-nil error whenever the guest
allocator returns the zero pointer, fails, or returns a value that is not an
`int32`; and whenever `alloc` returns a nil error its pointer is non-zero and is
the `int32` the guest allocator returned. -/
theorem alloc_zero_is_error (env : Env) (pl : prolog) (size : Int) :
    (∀ f st, pl.realloc = some f → pl.store = some st →
      ((f.run st [0, 0, env.align, size]).1 = .ok (.i32 0) ∨
       (∃ e, (f.run st [0, 0, env.align, size]).1 = .error e) ∨
       (∀ v, (f.run st [0, 0, env.align, size]).1 ≠ .ok (.i32 v))) →
      ∃ e, (pl.alloc env size).out = .ret (0, some e)) ∧
    (∀ p, (pl.alloc env size).out = .ret (p, none) →
      p ≠ 0 ∧ ∃ f st, pl.realloc = some f ∧ pl.store = some st ∧
        (f.run st [0, 0, env.align, size]).1 = .ok (.i32 p)) := by
  constructor
  · intro f st hf hs h
    rw [alloc_out env pl size f st hf hs]
    generalize (f.run st [0, 0, env.align, size]).1 = res at h
    rcases res with e | v
    · exact ⟨e, rfl⟩
    · cases v with
      | i32 x =>
        rcases h with h | ⟨e, h⟩ | h
        · simp only [Except.ok.injEq, Val.i32.injEq] at h
          subst h
          exact ⟨.errorf "trealla: failed to allocate wasm memory (out of memory?)", by simp⟩
        · cases h
        · exact absurd rfl (h x)
      | i64 x => exact ⟨_, rfl⟩
      | other t => exact ⟨_, rfl⟩
  · intro p hp
    rcases hf : pl.realloc with _ | f
    · simp [prolog.alloc, Func.Call, hf] at hp
    rcases hs : pl.store with _ | st
    · simp [prolog.alloc, Func.Call, hf, hs] at hp
    rw [alloc_out env pl size f st hf hs] at hp
    refine ⟨?_, f, st, rfl, rfl, ?_⟩
    · generalize (f.run st [0, 0, env.align, size]).1 = res at hp
      rcases res with e | v
      · simp at hp
      · cases v with
        | i32 x =>
          by_cases hx : x = 0
          · simp [hx] at hp
          · simp [hx] at hp
            exact hp ▸ hx
        | i64 x => simp at hp
        | other t => simp at hp
    · generalize (f.run st [0, 0, env.align, size]).1 = res at hp
      rcases res with e | v
      · simp at hp
      · cases v with
        | i32 x =>
          by_cases hx : x = 0
          · simp [hx] at hp
          · simp [hx] at hp
            rw [hp]
        | i64 x => simp at hp
        | other t => simp at hp

/-- C7 at the sample interpreter: an allocator returning 1024 gives the pointer
1024, an allocator returning 0 gives an error. -/
theorem alloc_zero_is_error_witness :
    (Sample.pl.alloc Sample.env 8).out = .ret (1024, none) ∧
    (1024 : Int) ≠ 0 ∧
    (∃ e, (prolog.alloc Sample.env { Sample.pl with realloc := some (Sample.constFunc 0) } 8).out
      = .ret (0, some e)) :=
  ⟨rfl,
   ((alloc_zero_is_error Sample.env Sample.pl 8).2 1024 rfl).1,
   (alloc_zero_is_error Sample.env { Sample.pl with realloc := some (Sample.constFunc 0) } 8).1
     (Sample.constFunc 0) Sample.store rfl rfl (Or.inl rfl)⟩

/-! ### Cloning -/

/-- The clone path of `init` on a zero receiver: instantiate, then adopt the
source. -/
theorem Clone_eq (rt : Wasmtime) (env : Env) (src : prolog) :
    src.Clone rt env =
      match prolog.zero.initInstance rt false with
      | (.ret none, pl1) => pl1.initClone src
      | (out, pl1) => { out := out, pl := pl1, clone := some src } := by
  rfl

/-- A successful `Clone` is a successful instantiation followed by a successful
clone branch. -/
theorem Clone_ok (rt : Wasmtime) (env : Env) (src : prolog)
    (h : (src.Clone rt env).out = .ret none) :
    ∃ pl1, prolog.zero.initInstance rt false = (.ret none, pl1) ∧
      src.Clone rt env = pl1.initClone src := by
  rw [Clone_eq] at h ⊢
  rcases hi : prolog.zero.initInstance rt false with ⟨out, pl1⟩
  rw [hi] at h
  rcases out with e | p
  · rcases e with _ | e
    · exact ⟨pl1, rfl, rfl⟩
    · simp at h
  · simp at h

/-- The `uint64` difference of line 219 is the exact difference when the source
is at least as large as the fresh memory. -/
theorem cloneDelta_of_le (s f : Nat) (hs : s < 2 ^ 64) (hle : f ≤ s) :
    cloneDelta s f = s - f := by
  unfold cloneDelta subUint64
  norm_num at hs ⊢
  omega

/-- After a growth by the wrapped `delta` the fresh memory holds at least as many
pages as the source; without growth the two already agree modulo `2^64`. -/
theorem cloneDelta_covers (s f : Nat) (hs : s < 2 ^ 64) :
    (0 < cloneDelta s f → s ≤ f + cloneDelta s f) ∧ (cloneDelta s f = 0 → s ≤ f) := by
  unfold cloneDelta subUint64
  norm_num at hs ⊢
  omega

/-- The clone branch never touches `procs` except through line 211, which copies
the receiver's own table. -/
theorem initClone_procs (pl src : prolog) :
    (pl.initClone src).pl.procs = pl.procs.clone := by
  unfold prolog.initClone prolog.copyMemory
  simp only
  repeat' split
  all_goals rfl

/-- Binding one export leaves `procs` alone when the assignment and the
continuation do. -/
theorem bindExport_procs (pl : prolog) (symbol : String) (assign : prolog → Option Func → prolog)
    (k : prolog → Outcome (Option GoError) × prolog)
    (ha : ∀ p f, (assign p f).procs = p.procs) (hk : ∀ p, (k p).2.procs = p.procs) :
    (pl.bindExport symbol assign k).2.procs = pl.procs := by
  unfold prolog.bindExport
  split
  · rfl
  · split
    · simp [ha]
    · simp [ha, hk]

/-- Instantiation leaves `procs` alone. -/
theorem initInstance_procs (rt : Wasmtime) (pl : prolog) (fresh : Bool) :
    (pl.initInstance rt fresh).2.procs = pl.procs := by
  have hb : ∀ p : prolog, (p.bindExports).2.procs = p.procs := by
    intro p
    unfold prolog.bindExports
    repeat' first
      | (apply bindExport_procs <;> intros)
      | rfl
  have hm : ∀ (p : prolog) (i : Instance), (p.bindMemory i).2.procs = p.procs := by
    intro p i
    unfold prolog.bindMemory
    split
    · rfl
    · split
      · rfl
      · simp [hb]
  unfold prolog.initInstance
  repeat' split
  all_goals try rfl
  all_goals try simp [hm]
  all_goals
    generalize Func.Call _ _ _ = c
    rcases c with ⟨⟨r | r, st⟩⟩ | p
    · rfl
    · simp [hm]
    · rfl

/-- A clone branch that returns nil has adopted the source's handle and holds
every byte of the source's memory; the source is as it was. -/
theorem initClone_ok (pl src : prolog) (hsz : ∀ st, src.store = some st → st.pages < 2 ^ 64)
    (h : (pl.initClone src).out = .ret none) :
    (pl.initClone src).pl.ptr = src.ptr ∧
    (∃ sst st, src.store = some sst ∧ (pl.initClone src).pl.store = some st ∧
      sst.pages * pageSize ≤ st.pages * pageSize ∧
      ∀ i, i < sst.pages * pageSize → st.byte i = sst.byte i) ∧
    (pl.initClone src).clone = some src := by
  rcases hsm : src.memory with _ | sm
  · simp [prolog.initClone, Memory.Size, hsm] at h
  rcases hss : src.store with _ | sst
  · simp [prolog.initClone, Memory.Size, hsm, hss] at h
  rcases hm : pl.memory with _ | m
  · simp [prolog.initClone, Memory.Size, hsm, hss, hm] at h
  rcases hs : pl.store with _ | st
  · simp [prolog.initClone, Memory.Size, hsm, hss, hm, hs] at h
  have hc := cloneDelta_covers sst.pages st.pages (hsz sst hss)
  by_cases hd : 0 < cloneDelta sst.pages st.pages
  · by_cases hg : st.pages + cloneDelta sst.pages st.pages ≤ st.maxPages
    · have hle : sst.pages * pageSize ≤ (st.pages + cloneDelta sst.pages st.pages) * pageSize :=
        Nat.mul_le_mul_right _ (hc.1 hd)
      simp only [prolog.initClone, Memory.Size, Memory.Grow, prolog.copyMemory,
        Memory.UnsafeData, hsm, hss, hm, hs, hd, hg, gt_iff_lt, if_true, Option.map_some']
      refine ⟨trivial, ⟨sst, _, rfl, rfl, hle, ?_⟩, trivial⟩
      intro i hi
      simp only [Nat.min_eq_right hle, hi, if_true]
    · simp [prolog.initClone, Memory.Size, Memory.Grow, hsm, hss, hm, hs, hd, hg] at h
  · have hz : cloneDelta sst.pages st.pages = 0 := by omega
    have hle : sst.pages * pageSize ≤ st.pages * pageSize :=
      Nat.mul_le_mul_right _ (hc.2 hz)
    simp only [prolog.initClone, Memory.Size, prolog.copyMemory,
      Memory.UnsafeData, hsm, hss, hm, hs, hd, gt_iff_lt, if_false, Option.map_some']
    refine ⟨trivial, ⟨sst, _, rfl, rfl, hle, ?_⟩, trivial⟩
    intro i hi
    simp only [Nat.min_eq_right hle, hi, if_true]

/-- C2 (not what the code does): `Clone` has no test for the closed state. On a
closed interpreter it instantiates a new guest module and, when that succeeds,
reaches line 219, where reading the size of the detached source memory is a nil
dereference; it returns an error only when the instantiation itself fails. At
the sample interpreter the outcome is the panic. -/
theorem Clone_of_closed_faults (rt : Wasmtime) (env : Env) (pl : prolog) :
    ((pl.Close).pl.Clone rt env).out =
      (match (prolog.zero.initInstance rt false).1 with
       | .ret none => .panic .nilDeref
       | out => out) ∧
    (Sample.pl.Close).pl.inst = none ∧
    ((Sample.pl.Close).pl.Clone (Sample.rt 1) Sample.env).out = .panic .nilDeref ∧
    ((Sample.pl.Close).pl.Consult Sample.env "f.pl").out = .ret (some .EOF) := by
  refine ⟨?_, rfl, rfl, rfl⟩
  rw [Clone_eq]
  rcases prolog.zero.initInstance rt false with ⟨out, pl1⟩
  rcases out with e | p
  · rcases e with _ | e
    · simp [prolog.initClone, prolog.Close, Memory.Size]
    · rfl
  · rfl

/-- C4 (not what the code does): line 211 copies the receiver's own `procs`, which
is nil in the fresh clone, not the source's; so the clone of every interpreter
has a nil `procs` table. At the sample interpreter `Clone` succeeds, the source
maps `foo/1` to a predicate, the clone does not, and `Register` on the clone
panics on the nil map. -/
theorem Clone_procs_nil (rt : Wasmtime) (env : Env) (src : prolog) :
    (src.Clone rt env).pl.procs = none ∧
    (Sample.pl.Clone (Sample.rt 1) Sample.env).out = .ret none ∧
    Sample.pl.procs.get? "foo/1" = some { id := 7 } ∧
    (Sample.pl.Clone (Sample.rt 1) Sample.env).pl.procs.get? "foo/1" = none ∧
    (prolog.Register Sample.env (Sample.pl.Clone (Sample.rt 1) Sample.env).pl "bar" 2
      { id := 9 }).out = .panic .nilMap := by
  refine ⟨?_, rfl, rfl, rfl, rfl⟩
  have hp := initInstance_procs rt prolog.zero false
  rw [Clone_eq]
  rcases hi : prolog.zero.initInstance rt false with ⟨out, pl1⟩
  rw [hi] at hp
  have hp1 : pl1.procs = none := hp
  rcases out with e | p
  · rcases e with _ | e
    · simp only [initClone_procs, hp1, GoMap.clone]
    · exact hp1
  · exact hp1

/-- C5: when `Clone` returns a nil error, the clone has the source's `ptr`, its
memory is at least as long as the source's and agrees with it at every offset
below the source's length, and the source is unchanged. The source's size in
pages is a `uint64`. -/
theorem Clone_copies_memory (rt : Wasmtime) (env : Env) (src : prolog)
    (hsz : ∀ st, src.store = some st → st.pages < 2 ^ 64)
    (h : (src.Clone rt env).out = .ret none) :
    (src.Clone rt env).pl.ptr = src.ptr ∧
    (∃ sst st, src.store = some sst ∧ (src.Clone rt env).pl.store = some st ∧
      sst.pages * pageSize ≤ st.pages * pageSize ∧
      ∀ i, i < sst.pages * pageSize → st.byte i = sst.byte i) ∧
    (src.Clone rt env).clone = some src := by
  obtain ⟨pl1, -, he⟩ := Clone_ok rt env src h
  rw [he] at h ⊢
  exact initClone_ok pl1 src hsz h

/-- C5 at the sample interpreter, cloned into a runtime whose new instances start
with no memory page: the clone succeeds, has the source's handle 64, and the
bytes 32 and 1 stored at offsets 8 and 9 of the source are in the clone. -/
theorem Clone_copies_memory_witness :
    (Sample.pl.Clone (Sample.rt 0) Sample.env).out = .ret none ∧
    (Sample.pl.Clone (Sample.rt 0) Sample.env).pl.ptr = 64 ∧
    (Sample.pl.Clone (Sample.rt 0) Sample.env).clone = some Sample.pl ∧
    (Sample.pl.Clone (Sample.rt 0) Sample.env).pl.store.map (fun st => (st.byte 8, st.byte 9))
      = some (32, 1) :=
  ⟨rfl,
   (Clone_copies_memory (Sample.rt 0) Sample.env Sample.pl
      (fun st hst => (Option.some.inj hst) ▸ (by decide)) rfl).1,
   (Clone_copies_memory (Sample.rt 0) Sample.env Sample.pl
      (fun st hst => (Option.some.inj hst) ▸ (by decide)) rfl).2.2,
   rfl⟩

/-- Outside the sizes that occur: every instance is instantiated from the same
module and a WebAssembly memory never shrinks, so a source never has fewer pages
than a fresh instance. Were a source of 1 page cloned into a fresh memory of 2
pages, the `uint64` difference of line 219 would wrap to `2^64 - 1`, which is
positive, and `init` would return the error of the growth it then attempts. -/
theorem init_clone_grows_when_source_smaller :
    Sample.pl.store.map (fun st => st.pages) = some 1 ∧
    (prolog.zero.initInstance (Sample.rt 2) false).2.store.map (fun st => st.pages) = some 2 ∧
    cloneDelta 1 2 = 2 ^ 64 - 1 ∧
    0 < cloneDelta 1 2 ∧
    (Sample.pl.Clone (Sample.rt 2) Sample.env).out = .ret (some (.wasm "failed to grow memory")) := by
  refine ⟨rfl, rfl, by decide, by decide, by decide⟩

/-- C6: for a source memory of `s` pages and a fresh memory of `f` pages, both
`uint64`, with `f <= s` (every instance comes from the same module and a memory
never shrinks, so a source is never smaller than a fresh instance): the
difference of line 219 is exactly `s - f` and is positive exactly when `s > f`.
When `s > f` the clone branch grows the fresh memory by exactly `s - f` pages,
so that the clone then has `s` pages, at least the source's size, or it returns
the error of that growth when the limit is below `s`; when `s = f` no growth is
attempted and the clone branch returns nil. -/
theorem init_clone_growth (pl src : prolog) (m sm : Memory) (st sst : Store)
    (hm : pl.memory = some m) (hs : pl.store = some st)
    (hsm : src.memory = some sm) (hss : src.store = some sst)
    (hb : sst.pages < 2 ^ 64) (hle : st.pages ≤ sst.pages) :
    cloneDelta sst.pages st.pages = sst.pages - st.pages ∧
    (0 < cloneDelta sst.pages st.pages ↔ st.pages < sst.pages) ∧
    (st.pages < sst.pages → sst.pages ≤ st.maxPages →
      (pl.initClone src).out = .ret none ∧
      ∃ st1, (pl.initClone src).pl.store = some st1 ∧
        st1.pages = st.pages + (sst.pages - st.pages) ∧ sst.pages ≤ st1.pages) ∧
    (st.pages < sst.pages → st.maxPages < sst.pages →
      (pl.initClone src).out = .ret (some (.wasm "failed to grow memory")) ∧
      (pl.initClone src).pl.store = some st) ∧
    (st.pages = sst.pages →
      (pl.initClone src).out = .ret none ∧
      ∃ st1, (pl.initClone src).pl.store = some st1 ∧ st1.pages = st.pages) := by
  have hd := cloneDelta_of_le sst.pages st.pages hb hle
  refine ⟨hd, by omega, ?_, ?_, ?_⟩
  · intro hlt hmax
    have hpos : 0 < sst.pages - st.pages := by omega
    have hg : st.pages + (sst.pages - st.pages) ≤ st.maxPages := by omega
    simp only [prolog.initClone, Memory.Size, Memory.Grow, prolog.copyMemory,
      Memory.UnsafeData, hsm, hss, hm, hs, hd, hpos, hg, gt_iff_lt, if_true, Option.map_some']
    exact ⟨trivial, _, rfl, rfl, by simp only; omega⟩
  · intro hlt hmax
    have hpos : 0 < sst.pages - st.pages := by omega
    have hg : ¬ st.pages + (sst.pages - st.pages) ≤ st.maxPages := by omega
    simp only [prolog.initClone, Memory.Size, Memory.Grow, hsm, hss, hm, hs, hd, hpos, hg,
      gt_iff_lt, if_true, if_false]
    exact ⟨trivial, trivial⟩
  · intro heq
    have hpos : ¬ 0 < sst.pages - st.pages := by omega
    simp only [prolog.initClone, Memory.Size, prolog.copyMemory,
      Memory.UnsafeData, hsm, hss, hm, hs, hd, hpos, gt_iff_lt, if_false, Option.map_some']
    exact ⟨trivial, _, rfl, rfl⟩

/-- C6 at a fresh memory of no page and the sample source of one page:
the difference is 1, the clone branch succeeds and the clone then has one page. -/
theorem init_clone_growth_witness :
    cloneDelta 1 0 = 1 ∧
    ((Sample.fresh 0).initClone Sample.pl).out = .ret none ∧
    ((Sample.fresh 0).initClone Sample.pl).pl.store.map (fun st => st.pages) = some 1 :=
  ⟨(init_clone_growth (Sample.fresh 0) Sample.pl {} {} (Sample.freshStore 0) Sample.store
      rfl rfl rfl rfl (by decide) (by decide)).1,
   ((init_clone_growth (Sample.fresh 0) Sample.pl {} {} (Sample.freshStore 0) Sample.store
      rfl rfl rfl rfl (by decide) (by decide)).2.2.1 (by decide) (by decide)).1,
   rfl⟩

/-! ### Indirect pointers -/

/-- C8 fails as stated: with one page of memory attached, `indirect` panics on a
negative pointer, on a pointer whose `pp+ptrSize` overflows `int32`, and on a
pointer whose four bytes end beyond the memory; on a closed interpreter it
panics on every non-zero pointer. -/
theorem indirect_panics_out_of_range :
    (Sample.pl.indirect Sample.env (-1)).out = .panic .sliceBounds ∧
    (Sample.pl.indirect Sample.env 2147483647).out = .panic .sliceBounds ∧
    (Sample.pl.indirect Sample.env 65534).out = .panic .sliceBounds ∧
    ((Sample.pl.Close).pl.indirect Sample.env 8).out = .panic .nilDeref := by
  refine ⟨by decide, by decide, by decide, by decide⟩

/-- The offsets read by `binary.Read` lie inside the buffer it is given. -/
theorem binaryReadInt32_reads (buf : Slice) (o : Nat) (ho : o ∈ (binaryReadInt32 buf).2) :
    buf.base ≤ o ∧ o < buf.base + buf.len ∧ o < buf.base + 4 := by
  unfold binaryReadInt32 at ho
  split at ho
  · simp only [List.mem_cons, List.mem_singleton, List.not_mem_nil, or_false] at ho
    omega
  · split at ho
    · simp at ho
    · simp only [List.mem_map, List.mem_range] at ho
      obtain ⟨i, hi, rfl⟩ := ho
      omega

/-- C8, amended: `indirect` leaves the interpreter as it is and reads only
offsets inside the attached memory, within the four bytes at `uint32(pp)`. For
`pp = 0` it returns 0 and reads nothing. For `pp ≠ 0` with memory attached the
slice expression checks `uint32(pp) <= uint32(pp+ptrSize) <= len`: inside these
bounds it returns the little-endian `int32` at `uint32(pp)` (0 when fewer than
four bytes were sliced), outside them it panics with a slice-bounds error and
reads nothing. With the memory or store detached it panics with a nil
dereference. -/
theorem indirect_bounds (env : Env) (pl : prolog) (pp : Int) :
    (pl.indirect env pp).pl = pl ∧
    (pp = 0 → (pl.indirect env pp).out = .ret 0 ∧ (pl.indirect env pp).reads = []) ∧
    (∀ o ∈ (pl.indirect env pp).reads, ∃ st, pl.store = some st ∧ pl.memory ≠ none ∧
      o < st.pages * pageSize ∧ toUint32 pp ≤ o ∧ o < toUint32 pp + 4) ∧
    (∀ m st, pl.memory = some m → pl.store = some st → pp ≠ 0 →
      (toUint32 pp ≤ toUint32 (wrapInt32 (pp + env.ptrSize)) ∧
        toUint32 (wrapInt32 (pp + env.ptrSize)) ≤ st.pages * pageSize →
        (pl.indirect env pp).out =
          .ret (if 4 ≤ toUint32 (wrapInt32 (pp + env.ptrSize)) - toUint32 pp then
              wrapInt32 ((st.byte (toUint32 pp)).val + 256 * (st.byte (toUint32 pp + 1)).val
                + 65536 * (st.byte (toUint32 pp + 2)).val
                + 16777216 * (st.byte (toUint32 pp + 3)).val)
            else 0)) ∧
      (¬ (toUint32 pp ≤ toUint32 (wrapInt32 (pp + env.ptrSize)) ∧
          toUint32 (wrapInt32 (pp + env.ptrSize)) ≤ st.pages * pageSize) →
        (pl.indirect env pp).out = .panic .sliceBounds ∧ (pl.indirect env pp).reads = [])) ∧
    (pp ≠ 0 → pl.memory = none ∨ pl.store = none →
      (pl.indirect env pp).out = .panic .nilDeref ∧ (pl.indirect env pp).reads = []) := by
  by_cases h0 : pp = 0
  · subst h0
    simp [prolog.indirect]
  rcases hm : pl.memory with _ | m
  · simp [prolog.indirect, Memory.UnsafeData, h0, hm]
  rcases hs : pl.store with _ | st
  · simp [prolog.indirect, Memory.UnsafeData, h0, hm, hs]
  by_cases hb : toUint32 pp ≤ toUint32 (wrapInt32 (pp + env.ptrSize)) ∧
      toUint32 (wrapInt32 (pp + env.ptrSize)) ≤ st.pages * pageSize
  · have hread := binaryReadInt32_reads
      { base := 0 + toUint32 pp
        len := toUint32 (wrapInt32 (pp + env.ptrSize)) - toUint32 pp
        get := fun i => st.byte (toUint32 pp + i) }
    simp only [prolog.indirect, Memory.UnsafeData, Slice.slice, h0, hm, hs, hb, if_false,
      and_self, if_true] at hread ⊢
    by_cases h4 : 4 ≤ toUint32 (wrapInt32 (pp + env.ptrSize)) - toUint32 pp
    · simp only [binaryReadInt32, h4, if_true] at hread ⊢
      refine ⟨trivial, by simp, ?_, ?_, by simp⟩
      · intro o ho
        have := hread o ho
        exact ⟨st, rfl, by simp, by omega, by omega, by omega⟩
      · intro m1 st1 _ hst1 _
        cases hst1
        simp [hb]
    · by_cases hz : toUint32 (wrapInt32 (pp + env.ptrSize)) - toUint32 pp = 0
      · have h40 : ¬ (4 : Nat) ≤ 0 := by decide
        simp only [binaryReadInt32, hz, h40, if_true, if_false] at hread ⊢
        refine ⟨trivial, by simp, by simp, ?_, by simp⟩
        intro m1 st1 _ hst1 _
        cases hst1
        simp [hb, hz]
      · simp only [binaryReadInt32, h4, hz, if_false] at hread ⊢
        refine ⟨trivial, by simp, ?_, ?_, by simp⟩
        · intro o ho
          have := hread o ho
          exact ⟨st, rfl, by simp, by omega, by omega, by omega⟩
        · intro m1 st1 _ hst1 _
          cases hst1
          simp [hb]
  · simp only [prolog.indirect, Memory.UnsafeData, Slice.slice, h0, hm, hs, hb, if_false]
    refine ⟨trivial, by simp, by simp, ?_, by simp⟩
    intro m1 st1 _ hst1 _
    cases hst1
    simp [hb]

/-- C8 amended, at the sample interpreter: the pointer stored at offset 8 is read
as 288, and the null pointer is resolved without a read. -/
theorem indirect_bounds_witness :
    (Sample.pl.indirect Sample.env 8).out = .ret 288 ∧
    (Sample.pl.indirect Sample.env 0).out = .ret 0 ∧
    (Sample.pl.indirect Sample.env 0).reads = [] :=
  ⟨((indirect_bounds Sample.env Sample.pl 8).2.2.2.1 {} Sample.store rfl rfl (by decide)).1
      (by decide),
   ((indirect_bounds Sample.env Sample.pl 0).2.1 rfl).1,
   ((indirect_bounds Sample.env Sample.pl 0).2.1 rfl).2⟩

/-! ### The query tables -/

/-- The method `indirect` leaves the interpreter as it is. -/
theorem indirect_pl (env : Env) (pl : prolog) (pp : Int) : (pl.indirect env pp).pl = pl := by
  unfold prolog.indirect
  repeat' split
  all_goals rfl

/-- The loop of `subquery` leaves the interpreter as it is. -/
theorem subqueryLoop_pl (env : Env) (pl : prolog) (addr : Int) (l : List (Int × query)) :
    (pl.subqueryLoop env addr l).pl = pl := by
  induction l with
  | nil => rfl
  | cons e rest ih =>
    rcases e with ⟨spawn, q⟩
    unfold prolog.subqueryLoop
    simp only [indirect_pl]
    split
    · rfl
    · split
      · rfl
      · exact ih

/-- One step of the loop of `subquery`, by what `indirect` gave for the key. -/
theorem subqueryLoop_cons (env : Env) (pl : prolog) (addr spawn : Int) (q : query)
    (rest : List (Int × query)) :
    (pl.subqueryLoop env addr ((spawn, q) :: rest)).out =
      match (pl.indirect env spawn).out with
      | .panic p => .panic p
      | .ret ptr =>
        if ptr ≠ 0 ∧ ptr = addr then .ret (some q)
        else (pl.subqueryLoop env addr rest).out := by
  rw [prolog.subqueryLoop]
  simp only [indirect_pl]
  rcases (pl.indirect env spawn).out with ptr | p
  · simp only
    split <;> rfl
  · rfl

/-- A query returned by the loop is stored under a key whose indirect pointer is
the non-zero address asked for. -/
theorem subqueryLoop_some (env : Env) (pl : prolog) (addr : Int) (l : List (Int × query))
    (q : query) (h : (pl.subqueryLoop env addr l).out = .ret (some q)) :
    ∃ s, (s, q) ∈ l ∧ (pl.indirect env s).out = .ret addr ∧ addr ≠ 0 := by
  induction l with
  | nil => simp [prolog.subqueryLoop] at h
  | cons e rest ih =>
    rcases e with ⟨spawn, q1⟩
    rw [subqueryLoop_cons] at h
    rcases hi : (pl.indirect env spawn).out with ptr | p
    · rw [hi] at h
      simp only at h
      by_cases hc : ptr ≠ 0 ∧ ptr = addr
      · rw [if_pos hc] at h
        have hq : q1 = q := by simpa using h
        subst hq
        obtain ⟨h0, rfl⟩ := hc
        exact ⟨spawn, List.mem_cons_self _ _, hi, h0⟩
      · rw [if_neg hc] at h
        obtain ⟨s, hs, hr⟩ := ih h
        exact ⟨s, List.mem_cons_of_mem _ hs, hr⟩
    · rw [hi] at h
      simp at h

/-- When the loop returns nil, no key it visited resolves to the address. -/
theorem subqueryLoop_none (env : Env) (pl : prolog) (addr : Int) (l : List (Int × query))
    (h : (pl.subqueryLoop env addr l).out = .ret none) :
    ∀ s q, (s, q) ∈ l → ¬ ((pl.indirect env s).out = .ret addr ∧ addr ≠ 0) := by
  induction l with
  | nil => simp
  | cons e rest ih =>
    rcases e with ⟨spawn, q1⟩
    rw [subqueryLoop_cons] at h
    rcases hi : (pl.indirect env spawn).out with ptr | p
    · rw [hi] at h
      simp only at h
      by_cases hc : ptr ≠ 0 ∧ ptr = addr
      · rw [if_pos hc] at h
        simp at h
      · rw [if_neg hc] at h
        intro s q hmem
        rcases List.mem_cons.mp hmem with heq | hmem
        · cases heq
          rintro ⟨hr, h0⟩
          rw [hi] at hr
          cases hr
          exact hc ⟨h0, rfl⟩
        · exact ih h s q hmem
    · rw [hi] at h
      simp at h

/-- When the pointer at every key can be read, the loop returns. -/
theorem subqueryLoop_total (env : Env) (pl : prolog) (addr : Int) (l : List (Int × query))
    (h : ∀ s q, (s, q) ∈ l → ∃ p, (pl.indirect env s).out = .ret p) :
    ∃ r, (pl.subqueryLoop env addr l).out = .ret r := by
  induction l with
  | nil => exact ⟨none, rfl⟩
  | cons e rest ih =>
    rcases e with ⟨spawn, q1⟩
    rw [subqueryLoop_cons]
    obtain ⟨ptr, hi⟩ := h spawn q1 (List.mem_cons_self _ _)
    rw [hi]
    simp only
    by_cases hc : ptr ≠ 0 ∧ ptr = addr
    · rw [if_pos hc]
      exact ⟨_, rfl⟩
    · rw [if_neg hc]
      exact ih fun s q hm => h s q (List.mem_cons_of_mem _ hm)

/-- C9: `subquery` leaves the interpreter, hence both tables, as it is. When
`addr` is a key of `running` it returns `running[addr]` without reading memory.
Otherwise a query it returns is stored in `spawning` under a key whose indirect
pointer is non-zero and equals `addr`, and when it returns nil then `addr` is
not in `running` and no key of `spawning` resolves to `addr`. When the pointer at
every key of `spawning` can be read, `subquery` returns, and it returns nil
exactly when `addr` is not in `running` and no key of `spawning` resolves to
`addr`; for `addr = 0` this is exactly when 0 is not in `running`. -/
theorem subquery_spec (env : Env) (pl : prolog) (addr : Int) :
    (pl.subquery env addr).pl = pl ∧
    (∀ q, pl.running.get? addr = some q →
      (pl.subquery env addr).out = .ret (some q) ∧ (pl.subquery env addr).reads = []) ∧
    (∀ q, pl.running.get? addr = none → (pl.subquery env addr).out = .ret (some q) →
      ∃ s, (s, q) ∈ pl.spawning.entries ∧ (pl.indirect env s).out = .ret addr ∧ addr ≠ 0) ∧
    ((pl.subquery env addr).out = .ret none →
      pl.running.get? addr = none ∧
      ∀ s q, (s, q) ∈ pl.spawning.entries →
        ¬ ((pl.indirect env s).out = .ret addr ∧ addr ≠ 0)) ∧
    ((∀ s q, (s, q) ∈ pl.spawning.entries → ∃ p, (pl.indirect env s).out = .ret p) →
      ∃ r, (pl.subquery env addr).out = .ret r ∧
        (r = none ↔
          pl.running.get? addr = none ∧
          ∀ s q, (s, q) ∈ pl.spawning.entries →
            ¬ ((pl.indirect env s).out = .ret addr ∧ addr ≠ 0)) ∧
        (addr = 0 → (r = none ↔ pl.running.get? addr = none))) := by
  rcases hr : pl.running.get? addr with _ | q0
  · have hsub : pl.subquery env addr = pl.subqueryLoop env addr pl.spawning.entries := by
      simp only [prolog.subquery, hr]
    rw [hsub]
    refine ⟨subqueryLoop_pl env pl addr _, by simp, ?_, ?_, ?_⟩
    · intro q _ h
      exact subqueryLoop_some env pl addr _ q h
    · intro h
      exact ⟨rfl, subqueryLoop_none env pl addr _ h⟩
    · intro hall
      obtain ⟨r, hout⟩ := subqueryLoop_total env pl addr _ hall
      have hiff : r = none ↔
          ∀ s q, (s, q) ∈ pl.spawning.entries →
            ¬ ((pl.indirect env s).out = .ret addr ∧ addr ≠ 0) := by
        constructor
        · intro hn
          subst hn
          exact subqueryLoop_none env pl addr _ hout
        · intro hno
          rcases r with _ | q
          · rfl
          · obtain ⟨s, hs, hres⟩ := subqueryLoop_some env pl addr _ q hout
            exact absurd hres (hno s q hs)
      refine ⟨r, hout, by simpa using hiff, ?_⟩
      intro h0
      exact ⟨fun _ => rfl, fun _ => hiff.mpr fun s q _ hc => hc.2 h0⟩
  · have hsub : pl.subquery env addr = { out := .ret (some q0), pl := pl, reads := [] } := by
      simp only [prolog.subquery, hr]
    rw [hsub]
    refine ⟨rfl, ?_, by simp, by simp, ?_⟩
    · intro q hq
      cases hq
      exact ⟨rfl, rfl⟩
    · intro _
      exact ⟨some q0, rfl, by simp, by simp⟩

/-- C9 at the sample interpreter: 48 is a running query; 288 is not, every
spawning key can be read, and the key 8, whose indirect pointer is 288, gives
its query; the null address is not resolved. -/
theorem subquery_spec_witness :
    (Sample.pl.subquery Sample.env 48).out = .ret (some { addr := 48, err := none }) ∧
    (∃ r, (Sample.pl.subquery Sample.env 288).out = .ret r) ∧
    (Sample.pl.subquery Sample.env 288).out = .ret (some { addr := 2, err := none }) ∧
    (Sample.pl.subquery Sample.env 0).out = .ret none :=
  ⟨((subquery_spec Sample.env Sample.pl 48).2.1 _ rfl).1,
   (((subquery_spec Sample.env Sample.pl 288).2.2.2.2 (by
      intro s q hm
      have hm2 : (s, q) ∈ [((16 : Int), ({ addr := 1, err := none } : query)),
          (8, { addr := 2, err := none })] := hm
      simp only [List.mem_cons, Prod.mk.injEq, List.mem_singleton, List.not_mem_nil,
        or_false] at hm2
      rcases hm2 with ⟨rfl, -⟩ | ⟨rfl, -⟩
      · exact ⟨0, by decide⟩
      · exact ⟨288, by decide⟩)).imp fun _ h => h.1),
   by decide, by decide⟩

/-! ### The transient handle -/

/-- C10: `kill` sets `dead` and drops the pointer, and for every handle that is
dead and every state `pl` of the interpreter it was made for: `Clone`,
`QueryOnce`, `ConsultText`, `Consult` and `Register` return the error of `ensure`,
`Query` returns a query carrying it, `Close` returns without setting `closing`,
`Stats` returns the zero value; each leaves the interpreter and the handle as
they were (so `dead` stays set, also under `kill`) and makes no guest call. A
handle that is not dead passes `ensure`. -/
theorem killed_handle_rejects (rt : Wasmtime) (env : Env) (lp : lockedProlog) (pl : prolog)
    (ask module text filename name : String) (options : List QueryOption) (arity : Int)
    (proc : Predicate) :
    (lp.kill).dead = true ∧ (lp.kill).prolog = none ∧
    (lp.dead = false → lp.ensure = none) ∧
    (lp.dead = true →
      lp.ensure = some errInvalidReference ∧
      (lp.kill).dead = true ∧
      (lp.Clone rt env pl).out = .ret (none, some errInvalidReference) ∧
      (lp.Clone rt env pl).lp = lp ∧ (lp.Clone rt env pl).pl = pl ∧
      (lp.Clone rt env pl).log = [] ∧
      (lp.Query env pl ask options).out = .ret { addr := 0, err := some errInvalidReference } ∧
      (lp.Query env pl ask options).lp = lp ∧ (lp.Query env pl ask options).pl = pl ∧
      (lp.Query env pl ask options).log = [] ∧
      (lp.QueryOnce env pl ask options).out = .ret (Answer.zero, some errInvalidReference) ∧
      (lp.QueryOnce env pl ask options).lp = lp ∧ (lp.QueryOnce env pl ask options).pl = pl ∧
      (lp.QueryOnce env pl ask options).log = [] ∧
      (lp.ConsultText env pl module text).out = .ret (some errInvalidReference) ∧
      (lp.ConsultText env pl module text).lp = lp ∧
      (lp.ConsultText env pl module text).pl = pl ∧
      (lp.ConsultText env pl module text).log = [] ∧
      (lp.Consult env pl filename).out = .ret (some errInvalidReference) ∧
      (lp.Consult env pl filename).lp = lp ∧ (lp.Consult env pl filename).pl = pl ∧
      (lp.Consult env pl filename).log = [] ∧
      (lp.Register env pl name arity proc).out = .ret (some errInvalidReference) ∧
      (lp.Register env pl name arity proc).lp = lp ∧
      (lp.Register env pl name arity proc).pl = pl ∧
      (lp.Register env pl name arity proc).log = [] ∧
      (lp.Close pl).out = .ret () ∧ (lp.Close pl).lp = lp ∧ (lp.Close pl).pl = pl ∧
      (lp.Close pl).pl.closing = pl.closing ∧ (lp.Close pl).log = [] ∧
      (lp.Stats pl).out = .ret Stats.zero ∧ (lp.Stats pl).lp = lp ∧ (lp.Stats pl).pl = pl ∧
      (lp.Stats pl).log = []) := by
  refine ⟨rfl, rfl, ?_, ?_⟩
  · intro h
    simp [lockedProlog.ensure, h]
  · intro h
    simp [lockedProlog.ensure, lockedProlog.kill, lockedProlog.Clone, lockedProlog.Query,
      lockedProlog.QueryOnce, lockedProlog.ConsultText, lockedProlog.Consult,
      lockedProlog.Register, lockedProlog.Close, lockedProlog.Stats, errInvalidReference, h]

/-- C10 at a handle for the sample interpreter: before `kill` the handle passes
`ensure` and `Close` sets `closing`; after `kill` the same `Close` leaves
`closing` unset and `Register` is rejected without a guest call. -/
theorem killed_handle_rejects_witness :
    ({ prolog := some (), dead := false } : lockedProlog).ensure = none ∧
    (lockedProlog.Close { prolog := some (), dead := false } Sample.pl).pl.closing = true ∧
    (lockedProlog.Close (lockedProlog.kill { prolog := some (), dead := false })
      Sample.pl).pl.closing = false ∧
    (lockedProlog.Register Sample.env (lockedProlog.kill { prolog := some (), dead := false })
      Sample.pl "bar" 2 { id := 9 }).out = .ret (some errInvalidReference) ∧
    (lockedProlog.Register Sample.env (lockedProlog.kill { prolog := some (), dead := false })
      Sample.pl "bar" 2 { id := 9 }).log = [] :=
  ⟨(killed_handle_rejects (Sample.rt 1) Sample.env { prolog := some (), dead := false } Sample.pl
      "a" "user" "a." "f.pl" "bar" [] 2 { id := 9 }).2.2.1 rfl,
   rfl, rfl,
   ((killed_handle_rejects (Sample.rt 1) Sample.env
      (lockedProlog.kill { prolog := some (), dead := false }) Sample.pl
      "a" "user" "a." "f.pl" "bar" [] 2 { id := 9 }).2.2.2 rfl).2.2.2.2.2.2.2.2.2.2.2.2.2.2
      |>.2.2.2.2.2.2.2.2.1,
   rfl⟩

/-! ### Registration -/

/-- After the assignment `m[k] = v` on a non-nil map, `k` has the value `v` and
every other key keeps its value. -/
theorem GoMap.get?_set {κ ν : Type} [DecidableEq κ] (l : List (κ × ν)) (k : κ) (v : ν) :
    ∃ m, GoMap.set (some l) k v = .ret m ∧ GoMap.get? m k = some v ∧
      ∀ k1, k1 ≠ k → GoMap.get? m k1 = GoMap.get? (some l) k1 := by
  refine ⟨_, rfl, ?_, ?_⟩
  · simp [GoMap.get?, GoMap.entries]
  · intro k1 hne
    have hfun : (fun e : κ × ν => (!decide (e.1 = k) && decide (e.1 = k1)))
        = fun e => decide (e.1 = k1) := by
      funext e
      by_cases h : e.1 = k1
      · simp [h, hne]
      · simp [h]
    have hk : ¬ k = k1 := fun h => hne h.symm
    simp [GoMap.get?, GoMap.entries, List.find?_cons, hk, hfun]

/-- The method `consultText` returns the query's error, wrapped. -/
theorem consultText_error (env : Env) (pl : prolog) (module text : String) (a : Answer)
    (err : GoError)
    (h : (env.QueryOnce pl (env.loadCharsGoal module text) [.withoutLock]).out
      = .ret (a, some err)) :
    (pl.consultText env module text).out
      = .ret (some (.wrapf "trealla: consult text failed" err)) := by
  unfold prolog.consultText
  simp only [h]

/-- The state after `consultText` is the state after its query. -/
theorem consultText_pl (env : Env) (pl : prolog) (module text : String) :
    (pl.consultText env module text).pl
      = (env.QueryOnce pl (env.loadCharsGoal module text) [.withoutLock]).pl := by
  unfold prolog.consultText
  simp only
  split <;> rfl

/-- C11: on an interpreter whose `procs` map is not nil, `register` first stores
the predicate under the key `name/arity`, replacing an earlier entry and keeping
every other key, and then is exactly `consultText` of the forwarding clause run
on that state `st0`: whatever `consultText` returns, in particular an error,
`register` returns, and the state is the one the query left, with no later
assignment to `procs`. So when the query fails, `register` returns its wrapped
error, and when the query left `procs` alone the key still maps to the new
predicate. On a nil `procs` map the assignment of line 381 panics before any
guest call. -/
theorem register_not_atomic (env : Env) (pl : prolog) (name : String) (arity : Int)
    (proc : Predicate) :
    (∀ l, pl.procs = some l →
      ∃ st0 : prolog,
        { st0 with procs := pl.procs } = pl ∧
        st0.procs.get? (env.piString name arity) = some proc ∧
        (∀ k, k ≠ env.piString name arity → st0.procs.get? k = pl.procs.get? k) ∧
        pl.register env name arity proc
          = st0.consultText env "user" (registerClause env name arity) ∧
        (pl.register env name arity proc).pl
          = (env.QueryOnce st0 (env.loadCharsGoal "user" (registerClause env name arity))
              [.withoutLock]).pl ∧
        (∀ e, (st0.consultText env "user" (registerClause env name arity)).out
            = .ret (some e) →
          (pl.register env name arity proc).out = .ret (some e)) ∧
        (∀ a err,
          (env.QueryOnce st0 (env.loadCharsGoal "user" (registerClause env name arity))
              [.withoutLock]).out = .ret (a, some err) →
          (pl.register env name arity proc).out
            = .ret (some (.wrapf "trealla: consult text failed" err))) ∧
        ((env.QueryOnce st0 (env.loadCharsGoal "user" (registerClause env name arity))
              [.withoutLock]).pl.procs = st0.procs →
          (pl.register env name arity proc).pl.procs.get? (env.piString name arity)
            = some proc)) ∧
    (pl.procs = none →
      (pl.register env name arity proc).out = .panic .nilMap ∧
      (pl.register env name arity proc).pl = pl ∧
      (pl.register env name arity proc).log = []) := by
  constructor
  · intro l hl
    obtain ⟨m, hset, hget, hoth⟩ := GoMap.get?_set l (env.piString name arity) proc
    have hreg : pl.register env name arity proc
        = prolog.consultText env { pl with procs := m } "user" (registerClause env name arity) := by
      unfold prolog.register
      rw [hl, hset]
      rfl
    refine ⟨{ pl with procs := m }, rfl, hget, ?_, hreg, ?_, ?_, ?_, ?_⟩
    · intro k hk
      rw [hl]
      exact hoth k hk
    · rw [hreg, consultText_pl]
    · intro e he
      rw [hreg]
      exact he
    · intro a err hq
      rw [hreg]
      exact consultText_error env _ "user" _ a err hq
    · intro hframe
      rw [hreg, consultText_pl, hframe]
      exact hget
  · intro hn
    unfold prolog.register
    rw [hn]
    exact ⟨rfl, rfl, rfl⟩

/-- C11 at the sample interpreter with a failing query: registering `foo/1`
again returns the wrapped error of the query, and `procs` now maps `foo/1` to the
new predicate 8 instead of 7. -/
theorem register_not_atomic_witness :
    Sample.pl.procs.get? "foo/1" = some { id := 7 } ∧
    (Sample.pl.register Sample.failing "foo" 1 { id := 8 }).out
      = .ret (some (.wrapf "trealla: consult text failed" (.wasm "syntax error"))) ∧
    (Sample.pl.register Sample.failing "foo" 1 { id := 8 }).pl.procs.get? "foo/1"
      = some { id := 8 } :=
  ⟨rfl,
   ((register_not_atomic Sample.failing Sample.pl "foo" 1 { id := 8 }).1
      [("foo/1", { id := 7 })] rfl).elim fun _ h => h.2.2.2.2.2.2.1 Answer.zero _ rfl,
   by decide⟩

/-! ### The configuration of a clone -/

/-- The zero receiver of a clone gets the default WASI configuration, whatever
the runtime does for preopened directories. -/
theorem zero_wasiConfig (rt : Wasmtime) : prolog.zero.wasiConfig rt = .ret defaultWasi := by
  simp [prolog.wasiConfig, prolog.argv, prolog.zero, preopenDirs, GoMap.entries, defaultWasi]

/-- Binding one export keeps the fields of `kept` when the assignment and the
continuation do. -/
theorem bindExport_kept (pl : prolog) (symbol : String) (assign : prolog → Option Func → prolog)
    (k : prolog → Outcome (Option GoError) × prolog)
    (ha : ∀ p f, (assign p f).kept = p.kept) (hk : ∀ p, (k p).2.kept = p.kept) :
    (pl.bindExport symbol assign k).2.kept = pl.kept := by
  unfold prolog.bindExport
  split
  · rfl
  · split
    · simp [ha]
    · simp [ha, hk]

/-- Binding the memory and the exports keeps the fields of `kept`. -/
theorem bindMemory_kept (pl : prolog) (i : Instance) : (pl.bindMemory i).2.kept = pl.kept := by
  have hb : ∀ p : prolog, (p.bindExports).2.kept = p.kept := by
    intro p
    unfold prolog.bindExports
    repeat' first
      | (apply bindExport_kept <;> intros)
      | rfl
  unfold prolog.bindMemory
  split
  · rfl
  · split
    · rfl
    · simp only [hb]
      rfl

/-- Instantiation assigns `wasi` the configuration built from the receiver and
keeps the other fields of `kept`. -/
theorem initInstance_kept (rt : Wasmtime) (pl : prolog) (fresh : Bool) (wasi : WasiConfig)
    (hw : pl.wasiConfig rt = .ret wasi) :
    (pl.initInstance rt fresh).2.kept = (prolog.kept { pl with wasi := some wasi }) := by
  unfold prolog.initInstance
  rw [hw]
  simp only
  repeat' split
  all_goals try rfl
  all_goals
    simp only [bindMemory_kept]
    rfl

/-- What the clone branch leaves in the fields of `kept`: `wasi`, `closing`,
`stdout` and `stderr` are the receiver's, `procs` is a copy of the receiver's, the
rest is the source's. -/
theorem initClone_kept (pl src : prolog) :
    (pl.initClone src).pl.kept =
      (pl.wasi, pl.closing, src.running.clone, src.spawning.clone, src.ptr, pl.procs.clone,
        src.preopen, src.dirs, src.library, src.trace, src.quiet, pl.stdout, pl.stderr,
        src.debug) := by
  unfold prolog.initClone prolog.copyMemory
  simp only
  repeat' split
  all_goals rfl

/-- Instantiation of the zero receiver consults the runtime only for the three
linker definitions and for `Instantiate` at the store carrying the default WASI
configuration. -/
theorem zero_initInstance_congr (rt rt1 : Wasmtime) (fresh : Bool)
    (h1 : rt1.DefineWasi = rt.DefineWasi) (h2 : rt1.DefineHostCall = rt.DefineHostCall)
    (h3 : rt1.DefineHostResume = rt.DefineHostResume)
    (h4 : rt1.Instantiate (NewStore.SetWasi defaultWasi)
      = rt.Instantiate (NewStore.SetWasi defaultWasi)) :
    prolog.zero.initInstance rt1 fresh = prolog.zero.initInstance rt fresh := by
  unfold prolog.initInstance
  rw [zero_wasiConfig, zero_wasiConfig]
  simp only [h1, h2, h3, h4]

/-- C12: the guest module of a clone is instantiated from the zero receiver,
before line 203 copies the source's configuration. For every source and runtime
the WASI configuration built for the clone has argv exactly
`["tpl", "-g", "halt", "--ns"]` and no preopened directory, it is the one the
clone keeps in `wasi`, and the result of `Clone` depends on the runtime only
through the three linker definitions and `Instantiate` at the store carrying
that configuration (so `PreopenDir` is never called). `stdout` and `stderr` of
the clone are nil. When the instantiation phase returns nil, the fields
`preopen`, `dirs`, `library`, `quiet`, `trace` and `debug` of the clone are the
source's. -/
theorem clone_instantiated_before_config (rt : Wasmtime) (env : Env) (src : prolog) :
    defaultWasi.argv = ["tpl", "-g", "halt", "--ns"] ∧ defaultWasi.preopens = [] ∧
    prolog.zero.argv = ["tpl", "-g", "halt", "--ns"] ∧
    prolog.zero.wasiConfig rt = .ret defaultWasi ∧
    (src.Clone rt env).pl.wasi = some defaultWasi ∧
    (∀ rt1 : Wasmtime, rt1.DefineWasi = rt.DefineWasi →
      rt1.DefineHostCall = rt.DefineHostCall → rt1.DefineHostResume = rt.DefineHostResume →
      rt1.Instantiate (NewStore.SetWasi defaultWasi)
        = rt.Instantiate (NewStore.SetWasi defaultWasi) →
      src.Clone rt1 env = src.Clone rt env) ∧
    (src.Clone rt env).pl.stdout = none ∧ (src.Clone rt env).pl.stderr = none ∧
    ((prolog.zero.initInstance rt false).1 = .ret none →
      (src.Clone rt env).pl.preopen = src.preopen ∧
      (src.Clone rt env).pl.dirs = src.dirs ∧
      (src.Clone rt env).pl.library = src.library ∧
      (src.Clone rt env).pl.quiet = src.quiet ∧
      (src.Clone rt env).pl.trace = src.trace ∧
      (src.Clone rt env).pl.debug = src.debug) := by
  have hk := initInstance_kept rt prolog.zero false defaultWasi (zero_wasiConfig rt)
  have hcong : ∀ rt1 : Wasmtime, rt1.DefineWasi = rt.DefineWasi →
      rt1.DefineHostCall = rt.DefineHostCall → rt1.DefineHostResume = rt.DefineHostResume →
      rt1.Instantiate (NewStore.SetWasi defaultWasi)
        = rt.Instantiate (NewStore.SetWasi defaultWasi) →
      src.Clone rt1 env = src.Clone rt env := by
    intro rt1 h1 h2 h3 h4
    rw [Clone_eq, Clone_eq, zero_initInstance_congr rt rt1 false h1 h2 h3 h4]
  refine ⟨rfl, rfl, rfl, zero_wasiConfig rt, ?_, hcong, ?_⟩
  all_goals
    rw [Clone_eq]
    rcases hi : prolog.zero.initInstance rt false with ⟨out, pl1⟩
    rw [hi] at hk
    have hc := initClone_kept pl1 src
    simp only [prolog.kept, Prod.mk.injEq] at hk hc
    rcases out with e | p
    · rcases e with _ | e
      · simp [hc, hk, prolog.zero]
      · simp [hk, prolog.zero]
    · simp [hk, prolog.zero]

/-- C12 at the configured sample interpreter: its clone is instantiated with the
four fixed arguments and no preopened directory, and afterwards carries the
source's library path, so its own `argv` would now be longer. -/
theorem clone_instantiated_before_config_witness :
    Sample.configured.argv = ["tpl", "-g", "halt", "--ns", "--library", "/testdata", "-t", "-q"] ∧
    (Sample.configured.Clone (Sample.rt 1) Sample.env).out = .ret none ∧
    (Sample.configured.Clone (Sample.rt 1) Sample.env).pl.wasi
      = some { argv := ["tpl", "-g", "halt", "--ns"], preopens := [] } ∧
    (Sample.configured.Clone (Sample.rt 1) Sample.env).pl.library = "/testdata" ∧
    (Sample.configured.Clone (Sample.rt 1) Sample.env).pl.argv
      = ["tpl", "-g", "halt", "--ns", "--library", "/testdata", "-t", "-q"] ∧
    Sample.configured.stdout = some { id := 1 } ∧
    (Sample.configured.Clone (Sample.rt 1) Sample.env).pl.stdout = none :=
  ⟨by decide, rfl,
   (clone_instantiated_before_config (Sample.rt 1) Sample.env Sample.configured).2.2.2.2.1,
   ((clone_instantiated_before_config (Sample.rt 1) Sample.env Sample.configured).2.2.2.2.2.2.2.2
      rfl).2.2.1,
   by decide, rfl,
   (clone_instantiated_before_config (Sample.rt 1) Sample.env Sample.configured).2.2.2.2.2.2.1⟩

end Trealla
